import Mathlib

/-
Verification of the UniversalMachine toolchain (src/loader.c, src/asm.c,
src/disasm.c) against its natural-language specification.

The C sources are shallowly embedded: machine words are `Nat` with explicit
`% 2 ^ 32` where 32-bit overflow matters, the emulator's mutable globals
(`g_arr`, `g_free_ids`, the register file, `pc`, and the I/O streams) become
fields of an explicit `Machine` record, and one iteration of the
fetch/decode/execute loop of `loader.c` becomes the function `step`.
-/

deriving instance DecidableEq for Except

namespace UM

/- ------------------------------------------------------------------
   Bitfield helpers (loader.c lines 61-66, identical in disasm.c).
   C shifts/masks on uint32_t become division/modulus on Nat.
   ------------------------------------------------------------------ -/

/-- `OPC` (loader.c:61): opcode field, bits 28..31 (`w >> 28`). -/
def OPC (w : Nat) : Nat := w / 2 ^ 28

/-- `ABC_A` (loader.c:62): bits 6..8 (`(w >> 6) & 7`). -/
def ABC_A (w : Nat) : Nat := w / 2 ^ 6 % 8

/-- `ABC_B` (loader.c:63): bits 3..5 (`(w >> 3) & 7`). -/
def ABC_B (w : Nat) : Nat := w / 2 ^ 3 % 8

/-- `ABC_C` (loader.c:64): bits 0..2 (`w & 7`). -/
def ABC_C (w : Nat) : Nat := w % 8

/-- `LI_A` (loader.c:65): bits 25..27 (`(w >> 25) & 7`). -/
def LI_A (w : Nat) : Nat := w / 2 ^ 25 % 8

/-- `LI_VAL` (loader.c:66): bits 0..24 (`w & 0x1FFFFFF`). -/
def LI_VAL (w : Nat) : Nat := w % 2 ^ 25

/- ------------------------------------------------------------------
   Array registry (loader.c lines 88-171).
   ------------------------------------------------------------------ -/

/-- One slot of the array registry (`UMArray`, loader.c:89-93).  In the C
code `len` always equals the allocation length of `data`, so the pair is
modelled as a single list and `len` as `data.length`.  `active` mirrors the
`active` flag (1 = live). -/
structure UMArray where
  data : List Nat
  active : Bool
deriving DecidableEq, Repr

instance : Inhabited UMArray := ⟨⟨[], false⟩⟩

/-- The whole emulator state: the registry `g_arr` (ids are list positions
`0 .. arrs.length - 1`), the LIFO free-id stack `g_free_ids` (head = top of
stack), the eight registers `regs` (loader.c:280), the program counter, and
the not-yet-consumed stdin bytes / already-written stdout bytes. -/
structure Machine where
  arrs : List UMArray
  freeIds : List Nat
  regs : List Nat
  pc : Nat
  input : List Nat
  output : List Nat
deriving DecidableEq, Repr

/-- Array 0, the code segment (`g_arr[0]`).  After `arrays_boot` the registry
is never empty; the default is only for the unreachable empty case. -/
def arr0 (m : Machine) : UMArray := m.arrs.getD 0 default

/-- Read register `i` (the C `regs[i]`; `i < 8` always holds because the
decoded fields are masked with `& 7`). -/
def reg (m : Machine) (i : Nat) : Nat := m.regs.getD i 0

/-- The fetched instruction word `g_arr[0].data[pc]` (loader.c:294). -/
def fetch (m : Machine) : Nat := (arr0 m).data.getD m.pc 0

/-- Result of one iteration of the fetch/decode/execute loop: continue in a
new state, orderly halt (opcode 7, exit 0), or trap
(`fail_and_exit`, exit 1) carrying the diagnostic string. -/
inductive Outcome where
  | next (m : Machine)
  | halted (m : Machine)
  | trapped (msg : String)
deriving DecidableEq, Repr

/-- Opcode 0, Conditional Move (loader.c:327-331). -/
def execCmov (m : Machine) (w : Nat) : Outcome :=
  if reg m (ABC_C w) ≠ 0 then
    .next { m with regs := m.regs.set (ABC_A w) (reg m (ABC_B w)), pc := m.pc + 1 }
  else .next { m with pc := m.pc + 1 }

/-- Opcode 1, Array Index (loader.c:334-344). -/
def execAidx (m : Machine) (w : Nat) : Outcome :=
  let id := reg m (ABC_B w)
  let off := reg m (ABC_C w)
  if m.arrs.length ≤ id ∨ (m.arrs.getD id default).active = false then
    .trapped "index: inactive array"
  else if (m.arrs.getD id default).data.length ≤ off then
    .trapped "index: offset OOB"
  else
    .next { m with regs := m.regs.set (ABC_A w) ((m.arrs.getD id default).data.getD off 0),
                   pc := m.pc + 1 }

/-- Opcode 2, Array Amend (loader.c:347-357). -/
def execAupd (m : Machine) (w : Nat) : Outcome :=
  let id := reg m (ABC_A w)
  let off := reg m (ABC_B w)
  let v := reg m (ABC_C w)
  if m.arrs.length ≤ id ∨ (m.arrs.getD id default).active = false then
    .trapped "update: inactive array"
  else if (m.arrs.getD id default).data.length ≤ off then
    .trapped "update: offset OOB"
  else
    .next { m with arrs := m.arrs.set id ⟨(m.arrs.getD id default).data.set off v,
                                          (m.arrs.getD id default).active⟩,
                   pc := m.pc + 1 }

/-- Opcode 3, Addition mod 2^32 (loader.c:360-364). -/
def execAdd (m : Machine) (w : Nat) : Outcome :=
  .next { m with regs := m.regs.set (ABC_A w) ((reg m (ABC_B w) + reg m (ABC_C w)) % 2 ^ 32),
                 pc := m.pc + 1 }

/-- Opcode 4, Multiplication mod 2^32 (loader.c:367-371). -/
def execMul (m : Machine) (w : Nat) : Outcome :=
  .next { m with regs := m.regs.set (ABC_A w) ((reg m (ABC_B w) * reg m (ABC_C w)) % 2 ^ 32),
                 pc := m.pc + 1 }

/-- Opcode 5, unsigned Division; divide by zero traps (loader.c:374-382). -/
def execDiv (m : Machine) (w : Nat) : Outcome :=
  if reg m (ABC_C w) = 0 then .trapped "divide by zero"
  else .next { m with regs := m.regs.set (ABC_A w) (reg m (ABC_B w) / reg m (ABC_C w)),
                      pc := m.pc + 1 }

/-- Opcode 6, Not-And (loader.c:385-389); `~x` on uint32_t is xor with
`2^32 - 1`. -/
def execNand (m : Machine) (w : Nat) : Outcome :=
  .next { m with
    regs := m.regs.set (ABC_A w) (Nat.xor (Nat.land (reg m (ABC_B w)) (reg m (ABC_C w))) (2 ^ 32 - 1)),
    pc := m.pc + 1 }

/-- Opcode 8, Allocation (loader.c:398-419).  `id_acquire` (loader.c:137-141)
pops the free LIFO if nonempty (`g_free_ids[--g_free_len]`, the head of our
list), else appends the fresh slot `g_arr_len`. -/
def execAlloc (m : Machine) (w : Nat) : Outcome :=
  let n := reg m (ABC_C w)
  if m.freeIds = [] then
    let id := m.arrs.length
    if id = 0 then .trapped "alloc: id 0 reserved"
    else .next { m with arrs := m.arrs ++ [⟨List.replicate n 0, true⟩],
                        regs := m.regs.set (ABC_B w) id, pc := m.pc + 1 }
  else
    let id := m.freeIds.headD 0
    if id = 0 then .trapped "alloc: id 0 reserved"
    else .next { m with arrs := m.arrs.set id ⟨List.replicate n 0, true⟩,
                        freeIds := m.freeIds.tail,
                        regs := m.regs.set (ABC_B w) id, pc := m.pc + 1 }

/-- Opcode 9, Abandonment (loader.c:422-440); `id_release` pushes onto the
free LIFO. -/
def execDealloc (m : Machine) (w : Nat) : Outcome :=
  let id := reg m (ABC_C w)
  if id = 0 ∨ m.arrs.length ≤ id ∨ (m.arrs.getD id default).active = false then
    .trapped "dealloc: invalid or inactive id"
  else
    .next { m with arrs := m.arrs.set id ⟨[], false⟩,
                   freeIds := id :: m.freeIds,
                   pc := m.pc + 1 }

/-- Opcode 10, Output (loader.c:443-454); the byte must be 0..255. -/
def execOut (m : Machine) (w : Nat) : Outcome :=
  let v := reg m (ABC_C w)
  if 255 < v then .trapped "output: value > 255"
  else .next { m with output := m.output ++ [v], pc := m.pc + 1 }

/-- Opcode 11, Input (loader.c:457-466); EOF yields 0xFFFFFFFF, otherwise the
next stdin byte (the C `(unsigned char)` cast is `% 256`). -/
def execIn (m : Machine) (w : Nat) : Outcome :=
  if m.input = [] then
    .next { m with regs := m.regs.set (ABC_C w) 4294967295, pc := m.pc + 1 }
  else
    .next { m with regs := m.regs.set (ABC_C w) (m.input.headD 0 % 256),
                   input := m.input.tail, pc := m.pc + 1 }

/-- Opcode 12, Load Program (loader.c:469-497). -/
def execLoadprog (m : Machine) (w : Nat) : Outcome :=
  let id := reg m (ABC_B w)
  let npc := reg m (ABC_C w)
  if id = 0 then
    .next { m with pc := npc }
  else if m.arrs.length ≤ id ∨ (m.arrs.getD id default).active = false then
    .trapped "loadprog: inactive id"
  else
    .next { m with arrs := m.arrs.set 0 ⟨(m.arrs.getD id default).data, true⟩,
                   pc := npc }

/-- Opcode 13, Load Immediate (loader.c:314-318), special field layout. -/
def execLoadimm (m : Machine) (w : Nat) : Outcome :=
  .next { m with regs := m.regs.set (LI_A w) (LI_VAL w), pc := m.pc + 1 }

/-- One cycle of the interpreter loop of `main` (loader.c:284-504): the
PC bound check, the fetch, and the dispatch on the opcode (the C `switch`
is an equality dispatch, rendered as an if-chain; each `case` block is one
`exec...` function above; opcode 7 halts in place, the `default` arm traps).
Because the decoded fields are disjoint bit ranges, C bitwise composition
is written with `%`, `/`, `*`, `+`. -/
def step (m : Machine) : Outcome :=
  -- loader.c:290: if (pc >= g_arr[0].len) fail
  if (arr0 m).data.length ≤ m.pc then .trapped "PC out of bounds at cycle start"
  else
    let w := fetch m
    let op := OPC w
    if op = 13 then execLoadimm m w
    else if op = 0 then execCmov m w
    else if op = 1 then execAidx m w
    else if op = 2 then execAupd m w
    else if op = 3 then execAdd m w
    else if op = 4 then execMul m w
    else if op = 5 then execDiv m w
    else if op = 6 then execNand m w
    else if op = 7 then .halted m  -- loader.c:392: arrays_destroy(); return 0
    else if op = 8 then execAlloc m w
    else if op = 9 then execDealloc m w
    else if op = 10 then execOut m w
    else if op = 11 then execIn m w
    else if op = 12 then execLoadprog m w
    else .trapped "invalid opcode"  -- loader.c:499: default (14 or 15)

/-- Boot state (loader.c:277-281 together with `arrays_boot`, loader.c:148):
array 0 holds the program image, the free-id stack is empty, the eight
registers are zero and PC = 0.  `inp` is the stdin byte stream. -/
def boot (prog : List Nat) (inp : List Nat) : Machine :=
  { arrs := [⟨prog, true⟩], freeIds := [], regs := List.replicate 8 0,
    pc := 0, input := inp, output := [] }

/- ------------------------------------------------------------------
   List access helper lemmas (about getD over set / append).
   ------------------------------------------------------------------ -/

theorem getD_set_self {α : Type} (l : List α) (i : Nat) (a d : α) (h : i < l.length) :
    (l.set i a).getD i d = a := by
  simp [List.getD_eq_getElem?_getD, List.getElem?_set_self, h]

theorem getD_set_ne {α : Type} (l : List α) (i j : Nat) (a d : α) (h : i ≠ j) :
    (l.set i a).getD j d = l.getD j d := by
  simp [List.getD_eq_getElem?_getD, List.getElem?_set_ne h]

theorem getD_concat_length {α : Type} (l : List α) (a d : α) :
    (l ++ [a]).getD l.length d = a := by
  simp [List.getD_eq_getElem?_getD]

theorem getD_append_left {α : Type} (l : List α) (a d : α) (j : Nat) (h : j < l.length) :
    (l ++ [a]).getD j d = l.getD j d := by
  simp [List.getD_eq_getElem?_getD, List.getElem?_append_left h]

theorem getD_of_le {α : Type} (l : List α) (d : α) (j : Nat) (h : l.length ≤ j) :
    l.getD j d = d := by
  simp [List.getD_eq_getElem?_getD, List.getElem?_eq_none h]

/- ------------------------------------------------------------------
   Claim theorems about the emulator core.
   ------------------------------------------------------------------ -/

/-- C4: at the start of every execution cycle, if `PC ≥ length(array 0)` the
emulator traps ("PC out of bounds") before fetching; contrapositively, every
cycle that goes on to fetch an instruction has `PC < length(array 0)`. -/
theorem pc_bound_trap (m : Machine) (h : (arr0 m).data.length ≤ m.pc) :
    step m = .trapped "PC out of bounds at cycle start" := by
  simp [step, h]

theorem pc_bound_trap_witness :
    (arr0 (boot [] [])).data.length ≤ (boot [] []).pc ∧
      step (boot [] []) = .trapped "PC out of bounds at cycle start" :=
  ⟨by decide, pc_bound_trap (boot [] []) (by decide)⟩

/-- C9: a fetched word whose opcode field (bits 28..31) is 14 or 15 falls
into the `default` arm of the dispatch switch and traps ("invalid opcode")
rather than being ignored. -/
theorem invalid_opcode_traps (m : Machine) (hpc : m.pc < (arr0 m).data.length)
    (hop : OPC (fetch m) = 14 ∨ OPC (fetch m) = 15) :
    step m = .trapped "invalid opcode" := by
  rcases hop with h | h <;> simp [step, h, Nat.not_le.2 hpc]

theorem invalid_opcode_traps_witness :
    ((boot [0xE0000000] []).pc < (arr0 (boot [0xE0000000] [])).data.length ∧
      OPC (fetch (boot [0xE0000000] [])) = 14) ∧
      step (boot [0xE0000000] []) = .trapped "invalid opcode" :=
  ⟨by decide, invalid_opcode_traps (boot [0xE0000000] []) (by decide) (Or.inl (by decide))⟩

/-- C7: opcode 10 (out) traps exactly when `r[C] > 255`; otherwise it appends
the single byte `r[C]` to standard output and increments PC by one, leaving
everything else unchanged. -/
theorem out_spec (m : Machine) (hpc : m.pc < (arr0 m).data.length)
    (hop : OPC (fetch m) = 10) :
    (255 < reg m (ABC_C (fetch m)) → step m = .trapped "output: value > 255") ∧
    (reg m (ABC_C (fetch m)) ≤ 255 →
      step m = .next { m with output := m.output ++ [reg m (ABC_C (fetch m))],
                              pc := m.pc + 1 }) := by
  constructor
  · intro h
    simp [step, execOut, hop, Nat.not_le.2 hpc, h]
  · intro h
    simp [step, execOut, hop, Nat.not_le.2 hpc, Nat.not_lt.2 h]

theorem out_spec_witness :
    ((boot [0xA0000001] []).pc < (arr0 (boot [0xA0000001] [])).data.length ∧
      OPC (fetch (boot [0xA0000001] [])) = 10 ∧
      reg (boot [0xA0000001] []) (ABC_C (fetch (boot [0xA0000001] []))) ≤ 255) ∧
      step (boot [0xA0000001] []) =
        .next { (boot [0xA0000001] []) with output := [0], pc := 1 } :=
  ⟨by decide, ((out_spec (boot [0xA0000001] []) (by decide) (by decide)).2 (by decide)).trans
    (by decide)⟩

/-- C1: behaviour of opcode 12 (loadprog), loader.c:469-497.  With
`r[B] = 0` it is a pure jump: the registry (array 0 included) is untouched
and only PC becomes `r[C]`.  With `r[B]` a live id, array 0 is replaced by an
element-wise copy of that array and PC becomes `r[C]` with no increment; the
source array stays live and unmodified.  With `r[B]` nonzero but not live,
the machine traps. -/
theorem loadprog_spec (m : Machine) (id npc : Nat)
    (hpc : m.pc < (arr0 m).data.length) (hop : OPC (fetch m) = 12)
    (hid : id = reg m (ABC_B (fetch m))) (hnpc : npc = reg m (ABC_C (fetch m))) :
    (id = 0 → step m = .next { m with pc := npc }) ∧
    (id ≠ 0 → id < m.arrs.length → (m.arrs.getD id default).active = true →
      step m = .next { m with arrs := m.arrs.set 0 ⟨(m.arrs.getD id default).data, true⟩,
                              pc := npc } ∧
      (∀ m2, step m = .next m2 →
        (arr0 m2).data = (m.arrs.getD id default).data ∧
        m2.arrs.getD id default = m.arrs.getD id default)) ∧
    (id ≠ 0 → m.arrs.length ≤ id ∨ (m.arrs.getD id default).active = false →
      step m = .trapped "loadprog: inactive id") := by
  subst hid; subst hnpc
  refine ⟨?_, ?_, ?_⟩
  · intro h0
    simp [step, execLoadprog, hop, Nat.not_le.2 hpc, h0]
  · intro h0 hlt hact
    rw [List.getD_eq_getElem?_getD] at hact
    have hstep : step m =
        .next { m with
          arrs := m.arrs.set 0 ⟨(m.arrs.getD (reg m (ABC_B (fetch m))) default).data, true⟩,
          pc := reg m (ABC_C (fetch m)) } := by
      simp [step, execLoadprog, hop, Nat.not_le.2 hpc, h0, Nat.not_le.2 hlt, hact]
    refine ⟨hstep, ?_⟩
    intro m2 h2
    rw [hstep] at h2
    injection h2 with h2
    subst h2
    constructor
    · show ((m.arrs.set 0 _).getD 0 default).data = _
      rw [getD_set_self _ _ _ _ (Nat.lt_of_le_of_lt (Nat.zero_le _) hlt)]
    · exact getD_set_ne _ _ _ _ _ (fun h => h0 h.symm)
  · intro h0 hbad
    rcases hbad with hge | hinact
    · simp [step, execLoadprog, hop, Nat.not_le.2 hpc, h0, hge]
    · rw [List.getD_eq_getElem?_getD] at hinact
      simp [step, execLoadprog, hop, Nat.not_le.2 hpc, h0, hinact]

/-- Concrete machine exercising the live-copy case of opcode 12:
array 0 holds one loadprog instruction (B = r1 = source id 1, C = r2 = 0),
array 1 is live with contents `[halt, 5]`. -/
def lpM : Machine :=
  { arrs := [⟨[0xC000000A], true⟩, ⟨[0x70000000, 5], true⟩],
    freeIds := [], regs := [0, 1, 0, 0, 0, 0, 0, 0], pc := 0,
    input := [], output := [] }

theorem loadprog_spec_witness :
    (lpM.pc < (arr0 lpM).data.length ∧ OPC (fetch lpM) = 12 ∧
      (1 : Nat) = reg lpM (ABC_B (fetch lpM)) ∧ (0 : Nat) = reg lpM (ABC_C (fetch lpM)) ∧
      (1 : Nat) ≠ 0 ∧ 1 < lpM.arrs.length ∧ (lpM.arrs.getD 1 default).active = true) ∧
      step lpM = .next { lpM with arrs := lpM.arrs.set 0 ⟨[0x70000000, 5], true⟩, pc := 0 } :=
  ⟨by decide,
    (((loadprog_spec lpM 1 0 (by decide) (by decide) (by decide) (by decide)).2.1
      (by decide) (by decide) (by decide)).1).trans (by decide)⟩

/-- C5: opcode 8 (alloc) with requested length `r[C] = n` (n = 0 allowed)
installs a live array of `n` zeros under a fresh id ≥ 1 — the top of the
free LIFO if it is nonempty, otherwise the next never-used slot index
`g_arr_len` — and stores that id in `r[B]`.  The well-formedness hypotheses
(registry nonempty, every stacked free id valid, nonzero and not live) hold
in every reachable state. -/
theorem alloc_spec (m : Machine) (hpc : m.pc < (arr0 m).data.length)
    (hop : OPC (fetch m) = 8) (hne : m.arrs ≠ [])
    (hfree : ∀ i ∈ m.freeIds,
      1 ≤ i ∧ i < m.arrs.length ∧ (m.arrs.getD i default).active = false) :
    ∃ id m2,
      id = m.freeIds.headD m.arrs.length ∧
      1 ≤ id ∧
      (m.arrs.getD id default).active = false ∧
      step m = .next m2 ∧
      m2.regs = m.regs.set (ABC_B (fetch m)) id ∧
      (m2.arrs.getD id default).active = true ∧
      (m2.arrs.getD id default).data = List.replicate (reg m (ABC_C (fetch m))) 0 ∧
      m2.freeIds = m.freeIds.tail ∧
      m2.pc = m.pc + 1 := by
  cases hf : m.freeIds with
  | nil =>
    have hlen : 1 ≤ m.arrs.length := List.length_pos.2 hne
    refine ⟨m.arrs.length,
      { m with arrs := m.arrs ++ [⟨List.replicate (reg m (ABC_C (fetch m))) 0, true⟩],
               regs := m.regs.set (ABC_B (fetch m)) m.arrs.length, pc := m.pc + 1 },
      by simp [hf], hlen, by rw [getD_of_le _ _ _ (Nat.le_refl _)]; rfl, ?_, rfl, ?_, ?_,
      by simp [hf], rfl⟩
    · simp [step, execAlloc, hop, Nat.not_le.2 hpc, hf, show ¬ m.arrs.length = 0 by omega]
    · show ((m.arrs ++ [_]).getD m.arrs.length default).active = true
      rw [getD_concat_length]
    · show ((m.arrs ++ [_]).getD m.arrs.length default).data = _
      rw [getD_concat_length]
  | cons j rest =>
    obtain ⟨h1, hlt, hact⟩ := hfree j (hf ▸ List.mem_cons_self j rest)
    refine ⟨j,
      { m with arrs := m.arrs.set j ⟨List.replicate (reg m (ABC_C (fetch m))) 0, true⟩,
               freeIds := rest, regs := m.regs.set (ABC_B (fetch m)) j, pc := m.pc + 1 },
      by simp [hf], h1, hact, ?_, rfl, ?_, ?_, by simp [hf], rfl⟩
    · simp [step, execAlloc, hop, Nat.not_le.2 hpc, hf, show ¬ j = 0 by omega]
    · show ((m.arrs.set j _).getD j default).active = true
      rw [getD_set_self _ _ _ _ hlt]
    · show ((m.arrs.set j _).getD j default).data = _
      rw [getD_set_self _ _ _ _ hlt]

/-- Concrete machine exercising opcode 8: one alloc instruction with
B = r1 and C = r2, where r2 = 3 requests a length-3 array. -/
def allocM : Machine :=
  { arrs := [⟨[0x8000000A], true⟩], freeIds := [], regs := [0, 0, 3, 0, 0, 0, 0, 0],
    pc := 0, input := [], output := [] }

theorem alloc_spec_witness :
    (allocM.pc < (arr0 allocM).data.length ∧ OPC (fetch allocM) = 8 ∧ allocM.arrs ≠ []) ∧
      ∃ id m2,
        id = allocM.freeIds.headD allocM.arrs.length ∧
        1 ≤ id ∧
        (allocM.arrs.getD id default).active = false ∧
        step allocM = .next m2 ∧
        m2.regs = allocM.regs.set (ABC_B (fetch allocM)) id ∧
        (m2.arrs.getD id default).active = true ∧
        (m2.arrs.getD id default).data = List.replicate (reg allocM (ABC_C (fetch allocM))) 0 ∧
        m2.freeIds = allocM.freeIds.tail ∧
        m2.pc = allocM.pc + 1 :=
  ⟨by decide, alloc_spec allocM (by decide) (by decide) (by decide) (by simp [allocM])⟩

/- ------------------------------------------------------------------
   Relational rendering of one cycle.  `StepR m o` holds exactly when the
   fetch/decode/execute loop body, started in state `m`, ends the cycle
   with outcome `o`: one constructor per control path of loader.c:284-504.
   ------------------------------------------------------------------ -/

inductive StepR : Machine → Outcome → Prop
  | oob {m} (h : (arr0 m).data.length ≤ m.pc) :
      StepR m (.trapped "PC out of bounds at cycle start")
  | loadimm {m} (hpc : ¬ (arr0 m).data.length ≤ m.pc) (hop : OPC (fetch m) = 13) :
      StepR m (.next { m with regs := m.regs.set (LI_A (fetch m)) (LI_VAL (fetch m)),
                              pc := m.pc + 1 })
  | cmov_move {m} (hpc : ¬ (arr0 m).data.length ≤ m.pc) (hop : OPC (fetch m) = 0)
      (hc : ¬ reg m (ABC_C (fetch m)) = 0) :
      StepR m (.next { m with regs := m.regs.set (ABC_A (fetch m)) (reg m (ABC_B (fetch m))),
                              pc := m.pc + 1 })
  | cmov_skip {m} (hpc : ¬ (arr0 m).data.length ≤ m.pc) (hop : OPC (fetch m) = 0)
      (hc : reg m (ABC_C (fetch m)) = 0) :
      StepR m (.next { m with pc := m.pc + 1 })
  | aidx_inactive {m} (hpc : ¬ (arr0 m).data.length ≤ m.pc) (hop : OPC (fetch m) = 1)
      (hbad : m.arrs.length ≤ reg m (ABC_B (fetch m)) ∨
        (m.arrs.getD (reg m (ABC_B (fetch m))) default).active = false) :
      StepR m (.trapped "index: inactive array")
  | aidx_oob {m} (hpc : ¬ (arr0 m).data.length ≤ m.pc) (hop : OPC (fetch m) = 1)
      (hok : ¬ (m.arrs.length ≤ reg m (ABC_B (fetch m)) ∨
        (m.arrs.getD (reg m (ABC_B (fetch m))) default).active = false))
      (hoff : (m.arrs.getD (reg m (ABC_B (fetch m))) default).data.length ≤
        reg m (ABC_C (fetch m))) :
      StepR m (.trapped "index: offset OOB")
  | aidx_ok {m} (hpc : ¬ (arr0 m).data.length ≤ m.pc) (hop : OPC (fetch m) = 1)
      (hok : ¬ (m.arrs.length ≤ reg m (ABC_B (fetch m)) ∨
        (m.arrs.getD (reg m (ABC_B (fetch m))) default).active = false))
      (hoff : ¬ (m.arrs.getD (reg m (ABC_B (fetch m))) default).data.length ≤
        reg m (ABC_C (fetch m))) :
      StepR m (.next { m with
        regs := m.regs.set (ABC_A (fetch m))
          ((m.arrs.getD (reg m (ABC_B (fetch m))) default).data.getD
            (reg m (ABC_C (fetch m))) 0),
        pc := m.pc + 1 })
  | aupd_inactive {m} (hpc : ¬ (arr0 m).data.length ≤ m.pc) (hop : OPC (fetch m) = 2)
      (hbad : m.arrs.length ≤ reg m (ABC_A (fetch m)) ∨
        (m.arrs.getD (reg m (ABC_A (fetch m))) default).active = false) :
      StepR m (.trapped "update: inactive array")
  | aupd_oob {m} (hpc : ¬ (arr0 m).data.length ≤ m.pc) (hop : OPC (fetch m) = 2)
      (hok : ¬ (m.arrs.length ≤ reg m (ABC_A (fetch m)) ∨
        (m.arrs.getD (reg m (ABC_A (fetch m))) default).active = false))
      (hoff : (m.arrs.getD (reg m (ABC_A (fetch m))) default).data.length ≤
        reg m (ABC_B (fetch m))) :
      StepR m (.trapped "update: offset OOB")
  | aupd_ok {m} (hpc : ¬ (arr0 m).data.length ≤ m.pc) (hop : OPC (fetch m) = 2)
      (hok : ¬ (m.arrs.length ≤ reg m (ABC_A (fetch m)) ∨
        (m.arrs.getD (reg m (ABC_A (fetch m))) default).active = false))
      (hoff : ¬ (m.arrs.getD (reg m (ABC_A (fetch m))) default).data.length ≤
        reg m (ABC_B (fetch m))) :
      StepR m (.next { m with
        arrs := m.arrs.set (reg m (ABC_A (fetch m)))
          ⟨(m.arrs.getD (reg m (ABC_A (fetch m))) default).data.set
              (reg m (ABC_B (fetch m))) (reg m (ABC_C (fetch m))),
            (m.arrs.getD (reg m (ABC_A (fetch m))) default).active⟩,
        pc := m.pc + 1 })
  | add {m} (hpc : ¬ (arr0 m).data.length ≤ m.pc) (hop : OPC (fetch m) = 3) :
      StepR m (.next { m with
        regs := m.regs.set (ABC_A (fetch m))
          ((reg m (ABC_B (fetch m)) + reg m (ABC_C (fetch m))) % 2 ^ 32),
        pc := m.pc + 1 })
  | mul {m} (hpc : ¬ (arr0 m).data.length ≤ m.pc) (hop : OPC (fetch m) = 4) :
      StepR m (.next { m with
        regs := m.regs.set (ABC_A (fetch m))
          ((reg m (ABC_B (fetch m)) * reg m (ABC_C (fetch m))) % 2 ^ 32),
        pc := m.pc + 1 })
  | div_zero {m} (hpc : ¬ (arr0 m).data.length ≤ m.pc) (hop : OPC (fetch m) = 5)
      (hz : reg m (ABC_C (fetch m)) = 0) :
      StepR m (.trapped "divide by zero")
  | div_ok {m} (hpc : ¬ (arr0 m).data.length ≤ m.pc) (hop : OPC (fetch m) = 5)
      (hz : ¬ reg m (ABC_C (fetch m)) = 0) :
      StepR m (.next { m with
        regs := m.regs.set (ABC_A (fetch m))
          (reg m (ABC_B (fetch m)) / reg m (ABC_C (fetch m))),
        pc := m.pc + 1 })
  | nand {m} (hpc : ¬ (arr0 m).data.length ≤ m.pc) (hop : OPC (fetch m) = 6) :
      StepR m (.next { m with
        regs := m.regs.set (ABC_A (fetch m))
          (Nat.xor (Nat.land (reg m (ABC_B (fetch m))) (reg m (ABC_C (fetch m)))) (2 ^ 32 - 1)),
        pc := m.pc + 1 })
  | halt {m} (hpc : ¬ (arr0 m).data.length ≤ m.pc) (hop : OPC (fetch m) = 7) :
      StepR m (.halted m)
  | alloc_grow0 {m} (hpc : ¬ (arr0 m).data.length ≤ m.pc) (hop : OPC (fetch m) = 8)
      (hf : m.freeIds = []) (hz : m.arrs.length = 0) :
      StepR m (.trapped "alloc: id 0 reserved")
  | alloc_grow {m} (hpc : ¬ (arr0 m).data.length ≤ m.pc) (hop : OPC (fetch m) = 8)
      (hf : m.freeIds = []) (hz : ¬ m.arrs.length = 0) :
      StepR m (.next { m with
        arrs := m.arrs ++ [⟨List.replicate (reg m (ABC_C (fetch m))) 0, true⟩],
        regs := m.regs.set (ABC_B (fetch m)) m.arrs.length,
        pc := m.pc + 1 })
  | alloc_pop0 {m} (hpc : ¬ (arr0 m).data.length ≤ m.pc) (hop : OPC (fetch m) = 8)
      (hf : ¬ m.freeIds = []) (hz : m.freeIds.headD 0 = 0) :
      StepR m (.trapped "alloc: id 0 reserved")
  | alloc_pop {m} (hpc : ¬ (arr0 m).data.length ≤ m.pc) (hop : OPC (fetch m) = 8)
      (hf : ¬ m.freeIds = []) (hz : ¬ m.freeIds.headD 0 = 0) :
      StepR m (.next { m with
        arrs := m.arrs.set (m.freeIds.headD 0) ⟨List.replicate (reg m (ABC_C (fetch m))) 0, true⟩,
        freeIds := m.freeIds.tail,
        regs := m.regs.set (ABC_B (fetch m)) (m.freeIds.headD 0),
        pc := m.pc + 1 })
  | dealloc_bad {m} (hpc : ¬ (arr0 m).data.length ≤ m.pc) (hop : OPC (fetch m) = 9)
      (hbad : reg m (ABC_C (fetch m)) = 0 ∨ m.arrs.length ≤ reg m (ABC_C (fetch m)) ∨
        (m.arrs.getD (reg m (ABC_C (fetch m))) default).active = false) :
      StepR m (.trapped "dealloc: invalid or inactive id")
  | dealloc_ok {m} (hpc : ¬ (arr0 m).data.length ≤ m.pc) (hop : OPC (fetch m) = 9)
      (hok : ¬ (reg m (ABC_C (fetch m)) = 0 ∨ m.arrs.length ≤ reg m (ABC_C (fetch m)) ∨
        (m.arrs.getD (reg m (ABC_C (fetch m))) default).active = false)) :
      StepR m (.next { m with
        arrs := m.arrs.set (reg m (ABC_C (fetch m))) ⟨[], false⟩,
        freeIds := reg m (ABC_C (fetch m)) :: m.freeIds,
        pc := m.pc + 1 })
  | out_bad {m} (hpc : ¬ (arr0 m).data.length ≤ m.pc) (hop : OPC (fetch m) = 10)
      (hv : 255 < reg m (ABC_C (fetch m))) :
      StepR m (.trapped "output: value > 255")
  | out_ok {m} (hpc : ¬ (arr0 m).data.length ≤ m.pc) (hop : OPC (fetch m) = 10)
      (hv : ¬ 255 < reg m (ABC_C (fetch m))) :
      StepR m (.next { m with output := m.output ++ [reg m (ABC_C (fetch m))],
                              pc := m.pc + 1 })
  | in_eof {m} (hpc : ¬ (arr0 m).data.length ≤ m.pc) (hop : OPC (fetch m) = 11)
      (hf : m.input = []) :
      StepR m (.next { m with regs := m.regs.set (ABC_C (fetch m)) 4294967295,
                              pc := m.pc + 1 })
  | in_byte {m} (hpc : ¬ (arr0 m).data.length ≤ m.pc) (hop : OPC (fetch m) = 11)
      (hf : ¬ m.input = []) :
      StepR m (.next { m with regs := m.regs.set (ABC_C (fetch m)) (m.input.headD 0 % 256),
                              input := m.input.tail, pc := m.pc + 1 })
  | loadprog_jump {m} (hpc : ¬ (arr0 m).data.length ≤ m.pc) (hop : OPC (fetch m) = 12)
      (hz : reg m (ABC_B (fetch m)) = 0) :
      StepR m (.next { m with pc := reg m (ABC_C (fetch m)) })
  | loadprog_bad {m} (hpc : ¬ (arr0 m).data.length ≤ m.pc) (hop : OPC (fetch m) = 12)
      (hz : ¬ reg m (ABC_B (fetch m)) = 0)
      (hbad : m.arrs.length ≤ reg m (ABC_B (fetch m)) ∨
        (m.arrs.getD (reg m (ABC_B (fetch m))) default).active = false) :
      StepR m (.trapped "loadprog: inactive id")
  | loadprog_copy {m} (hpc : ¬ (arr0 m).data.length ≤ m.pc) (hop : OPC (fetch m) = 12)
      (hz : ¬ reg m (ABC_B (fetch m)) = 0)
      (hok : ¬ (m.arrs.length ≤ reg m (ABC_B (fetch m)) ∨
        (m.arrs.getD (reg m (ABC_B (fetch m))) default).active = false)) :
      StepR m (.next { m with
        arrs := m.arrs.set 0 ⟨(m.arrs.getD (reg m (ABC_B (fetch m))) default).data, true⟩,
        pc := reg m (ABC_C (fetch m)) })
  | invalid {m} (hpc : ¬ (arr0 m).data.length ≤ m.pc) (hop : 13 < OPC (fetch m)) :
      StepR m (.trapped "invalid opcode")

/-- The loop body relates every state to the outcome the function `step`
computes: `StepR` is total. -/
theorem step_stepR (m : Machine) : StepR m (step m) := by
  by_cases hpc : (arr0 m).data.length ≤ m.pc
  · have hs : step m = .trapped "PC out of bounds at cycle start" := by
      simp only [step]; rw [if_pos hpc]
    rw [hs]; exact .oob hpc
  by_cases h13 : OPC (fetch m) = 13
  · have hs : step m = execLoadimm m (fetch m) := by
      simp only [step]; rw [if_neg hpc, if_pos h13]
    rw [hs]
    exact .loadimm hpc h13
  by_cases h0 : OPC (fetch m) = 0
  · have hs : step m = execCmov m (fetch m) := by
      simp only [step]; rw [if_neg hpc, if_neg h13, if_pos h0]
    rw [hs]
    simp only [execCmov]
    split
    next hc => exact .cmov_move hpc h0 hc
    next hc => exact .cmov_skip hpc h0 (not_not.1 hc)
  by_cases h1 : OPC (fetch m) = 1
  · have hs : step m = execAidx m (fetch m) := by
      simp only [step]; rw [if_neg hpc, if_neg h13, if_neg h0, if_pos h1]
    rw [hs]
    simp only [execAidx]
    split
    next hbad => exact .aidx_inactive hpc h1 hbad
    next hok =>
      split
      next hoff => exact .aidx_oob hpc h1 hok hoff
      next hoff => exact .aidx_ok hpc h1 hok hoff
  by_cases h2 : OPC (fetch m) = 2
  · have hs : step m = execAupd m (fetch m) := by
      simp only [step]; rw [if_neg hpc, if_neg h13, if_neg h0, if_neg h1, if_pos h2]
    rw [hs]
    simp only [execAupd]
    split
    next hbad => exact .aupd_inactive hpc h2 hbad
    next hok =>
      split
      next hoff => exact .aupd_oob hpc h2 hok hoff
      next hoff => exact .aupd_ok hpc h2 hok hoff
  by_cases h3 : OPC (fetch m) = 3
  · have hs : step m = execAdd m (fetch m) := by
      simp only [step]; rw [if_neg hpc, if_neg h13, if_neg h0, if_neg h1, if_neg h2, if_pos h3]
    rw [hs]
    exact .add hpc h3
  by_cases h4 : OPC (fetch m) = 4
  · have hs : step m = execMul m (fetch m) := by
      simp only [step]; rw [if_neg hpc, if_neg h13, if_neg h0, if_neg h1, if_neg h2, if_neg h3, if_pos h4]
    rw [hs]
    exact .mul hpc h4
  by_cases h5 : OPC (fetch m) = 5
  · have hs : step m = execDiv m (fetch m) := by
      simp only [step]; rw [if_neg hpc, if_neg h13, if_neg h0, if_neg h1, if_neg h2, if_neg h3, if_neg h4, if_pos h5]
    rw [hs]
    simp only [execDiv]
    split
    next hz => exact .div_zero hpc h5 hz
    next hz => exact .div_ok hpc h5 hz
  by_cases h6 : OPC (fetch m) = 6
  · have hs : step m = execNand m (fetch m) := by
      simp only [step]; rw [if_neg hpc, if_neg h13, if_neg h0, if_neg h1, if_neg h2, if_neg h3, if_neg h4, if_neg h5, if_pos h6]
    rw [hs]
    exact .nand hpc h6
  by_cases h7 : OPC (fetch m) = 7
  · have hs : step m = .halted m := by
      simp only [step]; rw [if_neg hpc, if_neg h13, if_neg h0, if_neg h1, if_neg h2, if_neg h3, if_neg h4, if_neg h5, if_neg h6, if_pos h7]
    rw [hs]
    exact .halt hpc h7
  by_cases h8 : OPC (fetch m) = 8
  · have hs : step m = execAlloc m (fetch m) := by
      simp only [step]; rw [if_neg hpc, if_neg h13, if_neg h0, if_neg h1, if_neg h2, if_neg h3, if_neg h4, if_neg h5, if_neg h6, if_neg h7, if_pos h8]
    rw [hs]
    simp only [execAlloc]
    split
    next hf =>
      split
      next hz => exact .alloc_grow0 hpc h8 hf hz
      next hz => exact .alloc_grow hpc h8 hf hz
    next hf =>
      split
      next hz => exact .alloc_pop0 hpc h8 hf hz
      next hz => exact .alloc_pop hpc h8 hf hz
  by_cases h9 : OPC (fetch m) = 9
  · have hs : step m = execDealloc m (fetch m) := by
      simp only [step]; rw [if_neg hpc, if_neg h13, if_neg h0, if_neg h1, if_neg h2, if_neg h3, if_neg h4, if_neg h5, if_neg h6, if_neg h7, if_neg h8, if_pos h9]
    rw [hs]
    simp only [execDealloc]
    split
    next hbad => exact .dealloc_bad hpc h9 hbad
    next hok => exact .dealloc_ok hpc h9 hok
  by_cases h10 : OPC (fetch m) = 10
  · have hs : step m = execOut m (fetch m) := by
      simp only [step]; rw [if_neg hpc, if_neg h13, if_neg h0, if_neg h1, if_neg h2, if_neg h3, if_neg h4, if_neg h5, if_neg h6, if_neg h7, if_neg h8, if_neg h9, if_pos h10]
    rw [hs]
    simp only [execOut]
    split
    next hv => exact .out_bad hpc h10 hv
    next hv => exact .out_ok hpc h10 hv
  by_cases h11 : OPC (fetch m) = 11
  · have hs : step m = execIn m (fetch m) := by
      simp only [step]; rw [if_neg hpc, if_neg h13, if_neg h0, if_neg h1, if_neg h2, if_neg h3, if_neg h4, if_neg h5, if_neg h6, if_neg h7, if_neg h8, if_neg h9, if_neg h10, if_pos h11]
    rw [hs]
    simp only [execIn]
    split
    next hf => exact .in_eof hpc h11 hf
    next hf => exact .in_byte hpc h11 hf
  by_cases h12 : OPC (fetch m) = 12
  · have hs : step m = execLoadprog m (fetch m) := by
      simp only [step]; rw [if_neg hpc, if_neg h13, if_neg h0, if_neg h1, if_neg h2, if_neg h3, if_neg h4, if_neg h5, if_neg h6, if_neg h7, if_neg h8, if_neg h9, if_neg h10, if_neg h11, if_pos h12]
    rw [hs]
    simp only [execLoadprog]
    split
    next hz => exact .loadprog_jump hpc h12 hz
    next hz =>
      split
      next hbad => exact .loadprog_bad hpc h12 hz hbad
      next hok => exact .loadprog_copy hpc h12 hz hok
  have hs : step m = .trapped "invalid opcode" := by
    simp only [step]; rw [if_neg hpc, if_neg h13, if_neg h0, if_neg h1, if_neg h2, if_neg h3, if_neg h4, if_neg h5, if_neg h6, if_neg h7, if_neg h8, if_neg h9, if_neg h10, if_neg h11, if_neg h12]
  rw [hs]; exact .invalid hpc (by omega)

/-- Conversely, each `StepR` path computes the same outcome as `step`. -/
theorem stepR_eq_step {m : Machine} {o : Outcome} (h : StepR m o) : step m = o := by
  cases h with
  | oob h =>
      simp only [step]; rw [if_pos h]
  | loadimm hpc hop =>
      simp only [step, execLoadimm]
      rw [if_neg hpc, if_pos hop]
  | cmov_move hpc hop hc =>
      simp only [step, execCmov]
      rw [if_neg hpc, if_neg (show ¬ OPC (fetch m) = 13 by omega), if_pos hop, if_pos hc]
  | cmov_skip hpc hop hc =>
      simp only [step, execCmov]
      rw [if_neg hpc, if_neg (show ¬ OPC (fetch m) = 13 by omega), if_pos hop, if_neg (not_not_intro hc)]
  | aidx_inactive hpc hop hbad =>
      simp only [step, execAidx]
      rw [if_neg hpc, if_neg (show ¬ OPC (fetch m) = 13 by omega), if_neg (show ¬ OPC (fetch m) = 0 by omega), if_pos hop, if_pos hbad]
  | aidx_oob hpc hop hok hoff =>
      simp only [step, execAidx]
      rw [if_neg hpc, if_neg (show ¬ OPC (fetch m) = 13 by omega), if_neg (show ¬ OPC (fetch m) = 0 by omega), if_pos hop, if_neg hok, if_pos hoff]
  | aidx_ok hpc hop hok hoff =>
      simp only [step, execAidx]
      rw [if_neg hpc, if_neg (show ¬ OPC (fetch m) = 13 by omega), if_neg (show ¬ OPC (fetch m) = 0 by omega), if_pos hop, if_neg hok, if_neg hoff]
  | aupd_inactive hpc hop hbad =>
      simp only [step, execAupd]
      rw [if_neg hpc, if_neg (show ¬ OPC (fetch m) = 13 by omega), if_neg (show ¬ OPC (fetch m) = 0 by omega), if_neg (show ¬ OPC (fetch m) = 1 by omega), if_pos hop, if_pos hbad]
  | aupd_oob hpc hop hok hoff =>
      simp only [step, execAupd]
      rw [if_neg hpc, if_neg (show ¬ OPC (fetch m) = 13 by omega), if_neg (show ¬ OPC (fetch m) = 0 by omega), if_neg (show ¬ OPC (fetch m) = 1 by omega), if_pos hop, if_neg hok, if_pos hoff]
  | aupd_ok hpc hop hok hoff =>
      simp only [step, execAupd]
      rw [if_neg hpc, if_neg (show ¬ OPC (fetch m) = 13 by omega), if_neg (show ¬ OPC (fetch m) = 0 by omega), if_neg (show ¬ OPC (fetch m) = 1 by omega), if_pos hop, if_neg hok, if_neg hoff]
  | add hpc hop =>
      simp only [step, execAdd]
      rw [if_neg hpc, if_neg (show ¬ OPC (fetch m) = 13 by omega), if_neg (show ¬ OPC (fetch m) = 0 by omega), if_neg (show ¬ OPC (fetch m) = 1 by omega), if_neg (show ¬ OPC (fetch m) = 2 by omega), if_pos hop]
  | mul hpc hop =>
      simp only [step, execMul]
      rw [if_neg hpc, if_neg (show ¬ OPC (fetch m) = 13 by omega), if_neg (show ¬ OPC (fetch m) = 0 by omega), if_neg (show ¬ OPC (fetch m) = 1 by omega), if_neg (show ¬ OPC (fetch m) = 2 by omega), if_neg (show ¬ OPC (fetch m) = 3 by omega), if_pos hop]
  | div_zero hpc hop hz =>
      simp only [step, execDiv]
      rw [if_neg hpc, if_neg (show ¬ OPC (fetch m) = 13 by omega), if_neg (show ¬ OPC (fetch m) = 0 by omega), if_neg (show ¬ OPC (fetch m) = 1 by omega), if_neg (show ¬ OPC (fetch m) = 2 by omega), if_neg (show ¬ OPC (fetch m) = 3 by omega), if_neg (show ¬ OPC (fetch m) = 4 by omega), if_pos hop, if_pos hz]
  | div_ok hpc hop hz =>
      simp only [step, execDiv]
      rw [if_neg hpc, if_neg (show ¬ OPC (fetch m) = 13 by omega), if_neg (show ¬ OPC (fetch m) = 0 by omega), if_neg (show ¬ OPC (fetch m) = 1 by omega), if_neg (show ¬ OPC (fetch m) = 2 by omega), if_neg (show ¬ OPC (fetch m) = 3 by omega), if_neg (show ¬ OPC (fetch m) = 4 by omega), if_pos hop, if_neg hz]
  | nand hpc hop =>
      simp only [step, execNand]
      rw [if_neg hpc, if_neg (show ¬ OPC (fetch m) = 13 by omega), if_neg (show ¬ OPC (fetch m) = 0 by omega), if_neg (show ¬ OPC (fetch m) = 1 by omega), if_neg (show ¬ OPC (fetch m) = 2 by omega), if_neg (show ¬ OPC (fetch m) = 3 by omega), if_neg (show ¬ OPC (fetch m) = 4 by omega), if_neg (show ¬ OPC (fetch m) = 5 by omega), if_pos hop]
  | halt hpc hop =>
      simp only [step]
      rw [if_neg hpc, if_neg (show ¬ OPC (fetch m) = 13 by omega), if_neg (show ¬ OPC (fetch m) = 0 by omega), if_neg (show ¬ OPC (fetch m) = 1 by omega), if_neg (show ¬ OPC (fetch m) = 2 by omega), if_neg (show ¬ OPC (fetch m) = 3 by omega), if_neg (show ¬ OPC (fetch m) = 4 by omega), if_neg (show ¬ OPC (fetch m) = 5 by omega), if_neg (show ¬ OPC (fetch m) = 6 by omega), if_pos hop]
  | alloc_grow0 hpc hop hf hz =>
      simp only [step, execAlloc]
      rw [if_neg hpc, if_neg (show ¬ OPC (fetch m) = 13 by omega), if_neg (show ¬ OPC (fetch m) = 0 by omega), if_neg (show ¬ OPC (fetch m) = 1 by omega), if_neg (show ¬ OPC (fetch m) = 2 by omega), if_neg (show ¬ OPC (fetch m) = 3 by omega), if_neg (show ¬ OPC (fetch m) = 4 by omega), if_neg (show ¬ OPC (fetch m) = 5 by omega), if_neg (show ¬ OPC (fetch m) = 6 by omega), if_neg (show ¬ OPC (fetch m) = 7 by omega), if_pos hop, if_pos hf, if_pos hz]
  | alloc_grow hpc hop hf hz =>
      simp only [step, execAlloc]
      rw [if_neg hpc, if_neg (show ¬ OPC (fetch m) = 13 by omega), if_neg (show ¬ OPC (fetch m) = 0 by omega), if_neg (show ¬ OPC (fetch m) = 1 by omega), if_neg (show ¬ OPC (fetch m) = 2 by omega), if_neg (show ¬ OPC (fetch m) = 3 by omega), if_neg (show ¬ OPC (fetch m) = 4 by omega), if_neg (show ¬ OPC (fetch m) = 5 by omega), if_neg (show ¬ OPC (fetch m) = 6 by omega), if_neg (show ¬ OPC (fetch m) = 7 by omega), if_pos hop, if_pos hf, if_neg hz]
  | alloc_pop0 hpc hop hf hz =>
      simp only [step, execAlloc]
      rw [if_neg hpc, if_neg (show ¬ OPC (fetch m) = 13 by omega), if_neg (show ¬ OPC (fetch m) = 0 by omega), if_neg (show ¬ OPC (fetch m) = 1 by omega), if_neg (show ¬ OPC (fetch m) = 2 by omega), if_neg (show ¬ OPC (fetch m) = 3 by omega), if_neg (show ¬ OPC (fetch m) = 4 by omega), if_neg (show ¬ OPC (fetch m) = 5 by omega), if_neg (show ¬ OPC (fetch m) = 6 by omega), if_neg (show ¬ OPC (fetch m) = 7 by omega), if_pos hop, if_neg hf, if_pos hz]
  | alloc_pop hpc hop hf hz =>
      simp only [step, execAlloc]
      rw [if_neg hpc, if_neg (show ¬ OPC (fetch m) = 13 by omega), if_neg (show ¬ OPC (fetch m) = 0 by omega), if_neg (show ¬ OPC (fetch m) = 1 by omega), if_neg (show ¬ OPC (fetch m) = 2 by omega), if_neg (show ¬ OPC (fetch m) = 3 by omega), if_neg (show ¬ OPC (fetch m) = 4 by omega), if_neg (show ¬ OPC (fetch m) = 5 by omega), if_neg (show ¬ OPC (fetch m) = 6 by omega), if_neg (show ¬ OPC (fetch m) = 7 by omega), if_pos hop, if_neg hf, if_neg hz]
  | dealloc_bad hpc hop hbad =>
      simp only [step, execDealloc]
      rw [if_neg hpc, if_neg (show ¬ OPC (fetch m) = 13 by omega), if_neg (show ¬ OPC (fetch m) = 0 by omega), if_neg (show ¬ OPC (fetch m) = 1 by omega), if_neg (show ¬ OPC (fetch m) = 2 by omega), if_neg (show ¬ OPC (fetch m) = 3 by omega), if_neg (show ¬ OPC (fetch m) = 4 by omega), if_neg (show ¬ OPC (fetch m) = 5 by omega), if_neg (show ¬ OPC (fetch m) = 6 by omega), if_neg (show ¬ OPC (fetch m) = 7 by omega), if_neg (show ¬ OPC (fetch m) = 8 by omega), if_pos hop, if_pos hbad]
  | dealloc_ok hpc hop hok =>
      simp only [step, execDealloc]
      rw [if_neg hpc, if_neg (show ¬ OPC (fetch m) = 13 by omega), if_neg (show ¬ OPC (fetch m) = 0 by omega), if_neg (show ¬ OPC (fetch m) = 1 by omega), if_neg (show ¬ OPC (fetch m) = 2 by omega), if_neg (show ¬ OPC (fetch m) = 3 by omega), if_neg (show ¬ OPC (fetch m) = 4 by omega), if_neg (show ¬ OPC (fetch m) = 5 by omega), if_neg (show ¬ OPC (fetch m) = 6 by omega), if_neg (show ¬ OPC (fetch m) = 7 by omega), if_neg (show ¬ OPC (fetch m) = 8 by omega), if_pos hop, if_neg hok]
  | out_bad hpc hop hv =>
      simp only [step, execOut]
      rw [if_neg hpc, if_neg (show ¬ OPC (fetch m) = 13 by omega), if_neg (show ¬ OPC (fetch m) = 0 by omega), if_neg (show ¬ OPC (fetch m) = 1 by omega), if_neg (show ¬ OPC (fetch m) = 2 by omega), if_neg (show ¬ OPC (fetch m) = 3 by omega), if_neg (show ¬ OPC (fetch m) = 4 by omega), if_neg (show ¬ OPC (fetch m) = 5 by omega), if_neg (show ¬ OPC (fetch m) = 6 by omega), if_neg (show ¬ OPC (fetch m) = 7 by omega), if_neg (show ¬ OPC (fetch m) = 8 by omega), if_neg (show ¬ OPC (fetch m) = 9 by omega), if_pos hop, if_pos hv]
  | out_ok hpc hop hv =>
      simp only [step, execOut]
      rw [if_neg hpc, if_neg (show ¬ OPC (fetch m) = 13 by omega), if_neg (show ¬ OPC (fetch m) = 0 by omega), if_neg (show ¬ OPC (fetch m) = 1 by omega), if_neg (show ¬ OPC (fetch m) = 2 by omega), if_neg (show ¬ OPC (fetch m) = 3 by omega), if_neg (show ¬ OPC (fetch m) = 4 by omega), if_neg (show ¬ OPC (fetch m) = 5 by omega), if_neg (show ¬ OPC (fetch m) = 6 by omega), if_neg (show ¬ OPC (fetch m) = 7 by omega), if_neg (show ¬ OPC (fetch m) = 8 by omega), if_neg (show ¬ OPC (fetch m) = 9 by omega), if_pos hop, if_neg hv]
  | in_eof hpc hop hf =>
      simp only [step, execIn]
      rw [if_neg hpc, if_neg (show ¬ OPC (fetch m) = 13 by omega), if_neg (show ¬ OPC (fetch m) = 0 by omega), if_neg (show ¬ OPC (fetch m) = 1 by omega), if_neg (show ¬ OPC (fetch m) = 2 by omega), if_neg (show ¬ OPC (fetch m) = 3 by omega), if_neg (show ¬ OPC (fetch m) = 4 by omega), if_neg (show ¬ OPC (fetch m) = 5 by omega), if_neg (show ¬ OPC (fetch m) = 6 by omega), if_neg (show ¬ OPC (fetch m) = 7 by omega), if_neg (show ¬ OPC (fetch m) = 8 by omega), if_neg (show ¬ OPC (fetch m) = 9 by omega), if_neg (show ¬ OPC (fetch m) = 10 by omega), if_pos hop, if_pos hf]
  | in_byte hpc hop hf =>
      simp only [step, execIn]
      rw [if_neg hpc, if_neg (show ¬ OPC (fetch m) = 13 by omega), if_neg (show ¬ OPC (fetch m) = 0 by omega), if_neg (show ¬ OPC (fetch m) = 1 by omega), if_neg (show ¬ OPC (fetch m) = 2 by omega), if_neg (show ¬ OPC (fetch m) = 3 by omega), if_neg (show ¬ OPC (fetch m) = 4 by omega), if_neg (show ¬ OPC (fetch m) = 5 by omega), if_neg (show ¬ OPC (fetch m) = 6 by omega), if_neg (show ¬ OPC (fetch m) = 7 by omega), if_neg (show ¬ OPC (fetch m) = 8 by omega), if_neg (show ¬ OPC (fetch m) = 9 by omega), if_neg (show ¬ OPC (fetch m) = 10 by omega), if_pos hop, if_neg hf]
  | loadprog_jump hpc hop hz =>
      simp only [step, execLoadprog]
      rw [if_neg hpc, if_neg (show ¬ OPC (fetch m) = 13 by omega), if_neg (show ¬ OPC (fetch m) = 0 by omega), if_neg (show ¬ OPC (fetch m) = 1 by omega), if_neg (show ¬ OPC (fetch m) = 2 by omega), if_neg (show ¬ OPC (fetch m) = 3 by omega), if_neg (show ¬ OPC (fetch m) = 4 by omega), if_neg (show ¬ OPC (fetch m) = 5 by omega), if_neg (show ¬ OPC (fetch m) = 6 by omega), if_neg (show ¬ OPC (fetch m) = 7 by omega), if_neg (show ¬ OPC (fetch m) = 8 by omega), if_neg (show ¬ OPC (fetch m) = 9 by omega), if_neg (show ¬ OPC (fetch m) = 10 by omega), if_neg (show ¬ OPC (fetch m) = 11 by omega), if_pos hop, if_pos hz]
  | loadprog_bad hpc hop hz hbad =>
      simp only [step, execLoadprog]
      rw [if_neg hpc, if_neg (show ¬ OPC (fetch m) = 13 by omega), if_neg (show ¬ OPC (fetch m) = 0 by omega), if_neg (show ¬ OPC (fetch m) = 1 by omega), if_neg (show ¬ OPC (fetch m) = 2 by omega), if_neg (show ¬ OPC (fetch m) = 3 by omega), if_neg (show ¬ OPC (fetch m) = 4 by omega), if_neg (show ¬ OPC (fetch m) = 5 by omega), if_neg (show ¬ OPC (fetch m) = 6 by omega), if_neg (show ¬ OPC (fetch m) = 7 by omega), if_neg (show ¬ OPC (fetch m) = 8 by omega), if_neg (show ¬ OPC (fetch m) = 9 by omega), if_neg (show ¬ OPC (fetch m) = 10 by omega), if_neg (show ¬ OPC (fetch m) = 11 by omega), if_pos hop, if_neg hz, if_pos hbad]
  | loadprog_copy hpc hop hz hok =>
      simp only [step, execLoadprog]
      rw [if_neg hpc, if_neg (show ¬ OPC (fetch m) = 13 by omega), if_neg (show ¬ OPC (fetch m) = 0 by omega), if_neg (show ¬ OPC (fetch m) = 1 by omega), if_neg (show ¬ OPC (fetch m) = 2 by omega), if_neg (show ¬ OPC (fetch m) = 3 by omega), if_neg (show ¬ OPC (fetch m) = 4 by omega), if_neg (show ¬ OPC (fetch m) = 5 by omega), if_neg (show ¬ OPC (fetch m) = 6 by omega), if_neg (show ¬ OPC (fetch m) = 7 by omega), if_neg (show ¬ OPC (fetch m) = 8 by omega), if_neg (show ¬ OPC (fetch m) = 9 by omega), if_neg (show ¬ OPC (fetch m) = 10 by omega), if_neg (show ¬ OPC (fetch m) = 11 by omega), if_pos hop, if_neg hz, if_neg hok]
  | invalid hpc hop =>
      simp only [step]
      rw [if_neg hpc, if_neg (show ¬ OPC (fetch m) = 13 by omega), if_neg (show ¬ OPC (fetch m) = 0 by omega), if_neg (show ¬ OPC (fetch m) = 1 by omega), if_neg (show ¬ OPC (fetch m) = 2 by omega), if_neg (show ¬ OPC (fetch m) = 3 by omega), if_neg (show ¬ OPC (fetch m) = 4 by omega), if_neg (show ¬ OPC (fetch m) = 5 by omega), if_neg (show ¬ OPC (fetch m) = 6 by omega), if_neg (show ¬ OPC (fetch m) = 7 by omega), if_neg (show ¬ OPC (fetch m) = 8 by omega), if_neg (show ¬ OPC (fetch m) = 9 by omega), if_neg (show ¬ OPC (fetch m) = 10 by omega), if_neg (show ¬ OPC (fetch m) = 11 by omega), if_neg (show ¬ OPC (fetch m) = 12 by omega)]
/- ------------------------------------------------------------------
   Reachability and the array-0 liveness invariant.
   ------------------------------------------------------------------ -/

/-- One continuing (non-terminal) cycle. -/
@[reducible] def StepNext (a b : Machine) : Prop := step a = .next b

/-- Reachability by executing whole cycles. -/
def Reach : Machine → Machine → Prop := Relation.ReflTransGen StepNext

/-- Array 0 stays live across any single continuing cycle. -/
theorem stepNext_arr0_active {a b : Machine} (h : StepNext a b)
    (ha : (arr0 a).active = true) : (arr0 b).active = true := by
  have hR := step_stepR a
  rw [h] at hR
  cases hR with
  | loadimm hpc hop => simpa [arr0] using ha
  | cmov_move hpc hop hc => simpa [arr0] using ha
  | cmov_skip hpc hop hc => simpa [arr0] using ha
  | aidx_ok hpc hop hok hoff => simpa [arr0] using ha
  | aupd_ok hpc hop hok hoff =>
      push_neg at hok
      obtain ⟨hlt, -⟩ := hok
      simp only [arr0] at ha ⊢
      by_cases h0 : reg a (ABC_A (fetch a)) = 0
      · rw [h0] at hlt ⊢
        rw [getD_set_self _ _ _ _ hlt]
        exact ha
      · rw [getD_set_ne _ _ _ _ _ h0]
        exact ha
  | add hpc hop => simpa [arr0] using ha
  | mul hpc hop => simpa [arr0] using ha
  | div_ok hpc hop hz => simpa [arr0] using ha
  | nand hpc hop => simpa [arr0] using ha
  | alloc_grow hpc hop hf hz =>
      simp only [arr0] at ha ⊢
      rw [getD_append_left _ _ _ _ (by omega)]
      exact ha
  | alloc_pop hpc hop hf hz =>
      simp only [arr0] at ha ⊢
      rw [getD_set_ne _ _ _ _ _ hz]
      exact ha
  | dealloc_ok hpc hop hok =>
      push_neg at hok
      obtain ⟨h0, -, -⟩ := hok
      simp only [arr0] at ha ⊢
      rw [getD_set_ne _ _ _ _ _ h0]
      exact ha
  | out_ok hpc hop hv => simpa [arr0] using ha
  | in_eof hpc hop hf => simpa [arr0] using ha
  | in_byte hpc hop hf => simpa [arr0] using ha
  | loadprog_jump hpc hop hz => simpa [arr0] using ha
  | loadprog_copy hpc hop hz hok =>
      push_neg at hok
      obtain ⟨hlt, -⟩ := hok
      simp only [arr0] at ha ⊢
      rw [getD_set_self _ _ _ _ (by omega)]

/-- C6: in every state reachable from boot by executing instructions, array
id 0 is live.  No continuing cycle can deallocate id 0: opcode 9 rejects
id 0 (loader.c:425), opcode 12 re-installs a live array 0 (loader.c:488-492),
every other path leaves slot 0 untouched. -/
theorem array0_always_live (p inp : List Nat) (m : Machine)
    (h : Reach (boot p inp) m) : (arr0 m).active = true := by
  induction h with
  | refl => rfl
  | tail hsteps hstep ih => exact stepNext_arr0_active hstep ih

theorem array0_always_live_witness :
    Reach (boot [0xD2000041, 0x70000000] [])
        { arrs := [⟨[0xD2000041, 0x70000000], true⟩], freeIds := [],
          regs := [0, 65, 0, 0, 0, 0, 0, 0], pc := 1, input := [], output := [] } ∧
      (arr0 { arrs := [⟨[0xD2000041, 0x70000000], true⟩], freeIds := [],
              regs := [0, 65, 0, 0, 0, 0, 0, 0], pc := 1, input := [],
              output := [] }).active = true :=
  have hr : Reach (boot [0xD2000041, 0x70000000] [])
      { arrs := [⟨[0xD2000041, 0x70000000], true⟩], freeIds := [],
        regs := [0, 65, 0, 0, 0, 0, 0, 0], pc := 1, input := [], output := [] } :=
    Relation.ReflTransGen.tail Relation.ReflTransGen.refl (by decide)
  ⟨hr, array0_always_live [0xD2000041, 0x70000000] [] _ hr⟩

/- ------------------------------------------------------------------
   Determinism of whole runs.
   ------------------------------------------------------------------ -/

/-- Big-step execution with trace: `TraceR m tr f` holds when running whole
cycles from `m` visits exactly the states `tr` (`m` first) and ends in the
terminal outcome `f` (halt or trap).  Each visited state carries its
registers, PC, pool, already-written output and not-yet-read input, so
equality of traces covers output streams and register/PC histories. -/
inductive TraceR : Machine → List Machine → Outcome → Prop
  | halt {m m2} (h : StepR m (.halted m2)) : TraceR m [m] (.halted m2)
  | trap {m e} (h : StepR m (.trapped e)) : TraceR m [m] (.trapped e)
  | more {m m2 tr f} (h : StepR m (.next m2)) (ht : TraceR m2 tr f) :
      TraceR m (m :: tr) f

/-- One cycle is deterministic. -/
theorem stepR_det {m : Machine} {o1 o2 : Outcome} (h1 : StepR m o1) (h2 : StepR m o2) :
    o1 = o2 :=
  (stepR_eq_step h1).symm.trans (stepR_eq_step h2)

/-- Whole runs from the same state are identical. -/
theorem traceR_det {m : Machine} {tr1 f1 tr2 f2} (h1 : TraceR m tr1 f1)
    (h2 : TraceR m tr2 f2) : tr1 = tr2 ∧ f1 = f2 := by
  induction h1 generalizing tr2 f2 with
  | halt h =>
    cases h2 with
    | halt h2h => exact ⟨rfl, stepR_det h h2h⟩
    | trap h2h => exact absurd (stepR_det h h2h) (by simp)
    | more h2h ht2 => exact absurd (stepR_det h h2h) (by simp)
  | trap h =>
    cases h2 with
    | halt h2h => exact absurd (stepR_det h h2h) (by simp)
    | trap h2h => exact ⟨rfl, stepR_det h h2h⟩
    | more h2h ht2 => exact absurd (stepR_det h h2h) (by simp)
  | more h ht ih =>
    cases h2 with
    | halt h2h => exact absurd (stepR_det h h2h) (by simp)
    | trap h2h => exact absurd (stepR_det h h2h) (by simp)
    | more h2h ht2 =>
      have hnext := stepR_det h h2h
      injection hnext with hnext
      subst hnext
      obtain ⟨htr, hf⟩ := ih ht2
      exact ⟨by rw [htr], hf⟩

/-- C8: runs of the emulator are deterministic: two runs from the same
initial array-0 image and the same input-byte stream visit the same state
sequence (hence identical outputs, register and PC histories) and end with
the same terminal outcome (halt vs. trap, same trap diagnostic). -/
theorem um_deterministic (p inp : List Nat) (tr1 tr2 : List Machine)
    (f1 f2 : Outcome)
    (h1 : TraceR (boot p inp) tr1 f1) (h2 : TraceR (boot p inp) tr2 f2) :
    tr1 = tr2 ∧ f1 = f2 :=
  traceR_det h1 h2

theorem um_deterministic_witness :
    (TraceR (boot [0x70000000] []) [boot [0x70000000] []]
        (.halted (boot [0x70000000] [])) ∧
      TraceR (boot [0x70000000] []) [boot [0x70000000] []]
        (.halted (boot [0x70000000] []))) ∧
      ([boot [0x70000000] []] = [boot [0x70000000] []] ∧
        Outcome.halted (boot [0x70000000] []) = .halted (boot [0x70000000] [])) :=
  have ht : TraceR (boot [0x70000000] []) [boot [0x70000000] []]
      (.halted (boot [0x70000000] [])) :=
    TraceR.halt ((show step (boot [0x70000000] []) = .halted (boot [0x70000000] [])
      by decide) ▸ step_stepR (boot [0x70000000] []))
  ⟨⟨ht, ht⟩, um_deterministic [0x70000000] [] _ _ _ _ ht ht⟩


/- ------------------------------------------------------------------
   Assembler (src/asm.c), embedded at the character level.  A source file
   is a list of lines, each line a list of characters.
   ------------------------------------------------------------------ -/

/-- C `isspace` in the POSIX locale: space and the control characters with
codepoints 9..13 (tab, newline, vertical tab, form feed, carriage return). -/
def isSpaceC (c : Char) : Bool := c = ' ' || (9 ≤ c.toNat && c.toNat ≤ 13)

/-- `next_token` separators (asm.c:224): whitespace or comma. -/
def isSepC (c : Char) : Bool := isSpaceC c || c = ','

/-- `is_labelch` (asm.c:79-82): alphanumerics plus `_` `:` `.` `-`. -/
def isLabelCh (c : Char) : Bool := c.isAlphanum || c = '_' || c = ':' || c = '.' || c = '-'

def isDigitC (c : Char) : Bool := c.isDigit

def isHexDigitC (c : Char) : Bool :=
  c.isDigit || ('a' ≤ c && c ≤ 'f') || ('A' ≤ c && c ≤ 'F')

def isOctDigitC (c : Char) : Bool := '0' ≤ c && c ≤ '7'

/-- The character list of a string literal. -/
def chs (s : String) : List Char := s.data

/-- The apostrophe and backslash characters. -/
def quoteC : Char := Char.ofNat 39
def backslashC : Char := Char.ofNat 92

/-- `strip_comment` (asm.c:97-100): truncate at the first ";;". -/
def stripComment : List Char → List Char
  | [] => []
  | c :: cs => if c = ';' ∧ cs.head? = some ';' then [] else c :: stripComment cs

/-- `rstrip` (asm.c:103-109): drop trailing newline/CR/whitespace
(all covered by `isspace`). -/
def rstripC (s : List Char) : List Char := (s.reverse.dropWhile isSpaceC).reverse

/-- `lstrip` (asm.c:112-115). -/
def lstripC (s : List Char) : List Char := s.dropWhile isSpaceC

/-- `parse_label` (asm.c:121-150): the keyword `label`, at least one space,
`@`, then at least one label character.  The output buffer has capacity 128,
so the recorded name is truncated to 127 characters; anything after the name
on the line is ignored. -/
def parseLabel (s : List Char) : Option (List Char) :=
  if s.take 5 = chs "label" ∧ Option.any isSpaceC (s.drop 5).head? = true then
    let p := (s.drop 5).dropWhile isSpaceC
    if p.head? = some '@' then
      let name := p.tail.takeWhile isLabelCh
      if name = [] then none else some (name.take 127)
    else none
  else none

/-- Structural core of the tokenizer: returns the token prefix currently
being built (reading right to left) and the finished tokens. -/
def tokCore : List Char → List Char × List (List Char)
  | [] => ([], [])
  | c :: cs =>
    let (cur, toks) := tokCore cs
    if isSepC c then ([], if cur = [] then toks else cur :: toks)
    else (c :: cur, toks)

/-- Repeated `next_token` (asm.c:223-241): split the line into the maximal
separator-free runs, separator runs collapsed. -/
def tokenize (s : List Char) : List (List Char) :=
  let (cur, toks) := tokCore s
  if cur = [] then toks else cur :: toks

/-- `labels_find` (asm.c:183-191): linear scan, first matching entry wins. -/
def labelsFind : List (String × Nat) → String → Option Nat
  | [], _ => none
  | (n, pc) :: rest, name => if n = name then some pc else labelsFind rest name

/-- Pass 1 (asm.c:344-368): collect `(label, pc)` pairs in file order.
`labels_add` (asm.c:163-180) appends unconditionally — duplicates included —
and label lines do not consume a PC slot. -/
def pass1 : List (List Char) → Nat → List (String × Nat)
  | [], _ => []
  | line :: rest, pc =>
    let s := lstripC (rstripC (stripComment line))
    if s = [] then pass1 rest pc
    else
      match parseLabel s with
      | some name => (String.mk name, pc) :: pass1 rest pc
      | none => pass1 rest (pc + 1)

/- digit-run values for the strtol/strtoul models -/

def decVal (l : List Char) : Nat := l.foldl (fun acc c => 10 * acc + (c.toNat - 48)) 0

def octVal (l : List Char) : Nat := l.foldl (fun acc c => 8 * acc + (c.toNat - 48)) 0

def hexDigitVal (c : Char) : Nat :=
  if c.isDigit then c.toNat - 48
  else if 'a' ≤ c && c ≤ 'f' then c.toNat - 87
  else c.toNat - 55

def hexVal (l : List Char) : Nat := l.foldl (fun acc c => 16 * acc + hexDigitVal c) 0

/-- `strtol(t, &e, 10)` combined with the `e == t || *e != 0` checks of
`parse_reg`: the whole list must be one nonempty digit run. -/
def decDigitsVal (l : List Char) : Option Nat :=
  if l = [] then none
  else if l.all isDigitC then some (decVal l) else none

/-- `parse_reg` (asm.c:244-252): optional leading r/R, then a decimal
literal in 0..7 (strtol also accepts a single sign character; negative
values are rejected by the `v < 0` check, so only a minus before zero
survives). -/
def parse_reg (t : List Char) : Option Nat :=
  let t1 := match t with
            | c :: rest => if c = 'r' ∨ c = 'R' then rest else t
            | [] => t
  match t1 with
  | '-' :: rest =>
    match decDigitsVal rest with
    | some v => if v = 0 then some 0 else none
    | none => none
  | '+' :: rest =>
    match decDigitsVal rest with
    | some v => if v ≤ 7 then some v else none
    | none => none
  | _ =>
    match decDigitsVal t1 with
    | some v => if v ≤ 7 then some v else none
    | none => none

/-- The digit part of `strtoul(l, &e, 0)` after the sign: base chosen by
prefix (`0x`/`0X` followed by a hex digit → hex; leading `0` → octal; else
decimal).  Returns the converted value and the unconsumed remainder, `none`
when no conversion is performed. -/
def base0Part (l : List Char) : Option (Nat × List Char) :=
  if l.head? = some '0' then
    let t := l.tail
    if (t.head? = some 'x' ∨ t.head? = some 'X') ∧ t.tail.takeWhile isHexDigitC ≠ [] then
      some (hexVal (t.tail.takeWhile isHexDigitC), t.tail.dropWhile isHexDigitC)
    else
      some (octVal (l.takeWhile isOctDigitC), l.dropWhile isOctDigitC)
  else
    if l.takeWhile isDigitC = [] then none
    else some (decVal (l.takeWhile isDigitC), l.dropWhile isDigitC)

/-- The numeric branch of `parse_imm` (asm.c:310-316): `strtoul(t, &e, 0)`
on a 64-bit host (overflow clamps to ULONG_MAX = 2^64 - 1, a minus sign
negates modulo 2^64), requiring the whole token consumed and the result at
most 0xFFFFFFFF. -/
def parseNum0 (t : List Char) : Option Nat :=
  let neg : Bool := t.head? = some '-'
  let body := if t.head? = some '-' ∨ t.head? = some '+' then t.tail else t
  match base0Part body with
  | none => none
  | some (v, rest) =>
    if rest = [] then
      let uv := if 2 ^ 64 ≤ v then 2 ^ 64 - 1 else v
      let fv := if neg then (2 ^ 64 - uv) % 2 ^ 64 else uv
      if 4294967295 < fv then none else some fv
    else none

/-- The digit part of `strtoul(l, &e, 16)` after the sign (used for the
hex escapes): optional `0x`/`0X` prefix when followed by a hex digit. -/
def hexPart (l : List Char) : Option (Nat × List Char) :=
  if (l.head? = some '0') ∧ (l.tail.head? = some 'x' ∨ l.tail.head? = some 'X') ∧
      l.tail.tail.takeWhile isHexDigitC ≠ [] then
    some (hexVal (l.tail.tail.takeWhile isHexDigitC), l.tail.tail.dropWhile isHexDigitC)
  else
    if l.takeWhile isHexDigitC = [] then none
    else some (hexVal (l.takeWhile isHexDigitC), l.dropWhile isHexDigitC)

/-- `strtoul(l, &e, 16)` with 64-bit clamp and sign (asm.c:292-300). -/
def strtoul16 (l : List Char) : Option (Nat × List Char) :=
  let neg : Bool := l.head? = some '-'
  let body := if l.head? = some '-' ∨ l.head? = some '+' then l.tail else l
  match hexPart body with
  | none => none
  | some (v, rest) =>
    let uv := if 2 ^ 64 ≤ v then 2 ^ 64 - 1 else v
    let fv := if neg then (2 ^ 64 - uv) % 2 ^ 64 else uv
    some (fv, rest)

/-- The character-literal body of `parse_imm` (asm.c:268-308), given the
token after the opening quote.  The character after the literal must be the
closing quote; anything beyond it is ignored, as in the C.  A bare-quote
token makes the C read past the NUL terminator; modelled as failure. -/
def parseCharLit (l : List Char) : Option Nat :=
  match l with
  | [] => none
  | c :: cs =>
    if c = backslashC then
      match cs with
      | [] => none
      | c2 :: cs2 =>
        if c2 = 'n' then (if cs2.head? = some quoteC then some 10 else none)
        else if c2 = 't' then (if cs2.head? = some quoteC then some 9 else none)
        else if c2 = 'r' then (if cs2.head? = some quoteC then some 13 else none)
        else if c2 = '0' then (if cs2.head? = some quoteC then some 0 else none)
        else if c2 = backslashC then (if cs2.head? = some quoteC then some 92 else none)
        else if c2 = quoteC then (if cs2.head? = some quoteC then some 39 else none)
        else if c2 = 'x' then
          match strtoul16 cs2 with
          | none => none
          | some (v, rest) =>
            if rest.head? = some quoteC then some (v % 2 ^ 32) else none
        else none
    else if cs.head? = some quoteC then some (c.toNat % 256) else none

/-- `parse_imm` (asm.c:259-317): `@label`, character literal, or numeric
literal in base 0. -/
def parse_imm (labels : List (String × Nat)) (t : List Char) : Option Nat :=
  if t = [] then none
  else if t.head? = some '@' then labelsFind labels (String.mk t.tail)
  else if t.head? = some quoteC then parseCharLit t.tail
  else parseNum0 t

/-- The word composition of pass 2 (asm.c:448 and the like):
`(op<<28)|((A&7)<<6)|((B&7)<<3)|(C&7)`.  The masked fields are disjoint, so
bitwise OR is addition. -/
def encodeABC (op a b c : Nat) : Nat :=
  op * 2 ^ 28 + a % 8 * 2 ^ 6 + b % 8 * 2 ^ 3 + c % 8

/-- asm.c:422: `(13<<28)|((A&7)<<25)|(imm&0x1FFFFFF)`. -/
def encodeLI (a imm : Nat) : Nat := 13 * 2 ^ 28 + a % 8 * 2 ^ 25 + imm % 2 ^ 25

/-- The pass-2 mnemonic dispatch (asm.c:402-518) at the token level: `mn` is
the line head token, `args` the rest.  Each branch takes the operands it
needs from the front of `args` with chained `next_token` calls and ignores
any further tokens. -/
def encodeTokens (labels : List (String × Nat)) (mn : List Char)
    (args : List (List Char)) : Except String Nat :=
  if mn = chs "loadimm" then
    match args with
    | tA :: tI :: _ =>
      match parse_reg tA, parse_imm labels tI with
      | some a, some imm =>
        if 0x1FFFFFF < imm then .error "loadimm immediate too large (needs 25 bits)"
        else .ok (encodeLI a imm)
      | _, _ => .error "loadimm syntax: loadimm A IMM"
    | _ => .error "loadimm syntax: loadimm A IMM"
  else if mn = chs "cmov" ∨ mn = chs "aidx" ∨ mn = chs "aupd" ∨ mn = chs "add" ∨
      mn = chs "mul" ∨ mn = chs "div" ∨ mn = chs "nand" then
    match args with
    | tA :: tB :: tC :: _ =>
      match parse_reg tA, parse_reg tB, parse_reg tC with
      | some a, some b, some c =>
        .ok (encodeABC
          (if mn = chs "cmov" then 0 else if mn = chs "aidx" then 1
            else if mn = chs "aupd" then 2 else if mn = chs "add" then 3
            else if mn = chs "mul" then 4 else if mn = chs "div" then 5 else 6) a b c)
      | _, _, _ => .error "ABC syntax: op A B C (regs 0..7)"
    | _ => .error "ABC syntax: op A B C (regs 0..7)"
  else if mn = chs "halt" then .ok (encodeABC 7 0 0 0)
  else if mn = chs "alloc" then
    match args with
    | tB :: tC :: _ =>
      match parse_reg tB, parse_reg tC with
      | some b, some c => .ok (encodeABC 8 0 b c)
      | _, _ => .error "alloc syntax: alloc B C"
    | _ => .error "alloc syntax: alloc B C"
  else if mn = chs "dealloc" then
    match args with
    | tC :: _ =>
      match parse_reg tC with
      | some c => .ok (encodeABC 9 0 0 c)
      | none => .error "dealloc syntax: dealloc C"
    | _ => .error "dealloc syntax: dealloc C"
  else if mn = chs "out" then
    match args with
    | tC :: _ =>
      match parse_reg tC with
      | some c => .ok (encodeABC 10 0 0 c)
      | none => .error "out syntax: out C"
    | _ => .error "out syntax: out C"
  else if mn = chs "in" then
    match args with
    | tC :: _ =>
      match parse_reg tC with
      | some c => .ok (encodeABC 11 0 0 c)
      | none => .error "in syntax: in C"
    | _ => .error "in syntax: in C"
  else if mn = chs "loadprog" then
    match args with
    | tB :: tC :: _ =>
      match parse_reg tB, parse_reg tC with
      | some b, some c => .ok (encodeABC 12 0 b c)
      | _, _ => .error "loadprog syntax: loadprog B C"
    | _ => .error "loadprog syntax: loadprog B C"
  else .error "unknown mnemonic"

/-- Pass-2 handling of one line (asm.c:385-521): comment stripping, blank
and label lines emit nothing (`.ok none`); otherwise the first token is the
mnemonic and the line encodes to one word. -/
def assembleLine (labels : List (String × Nat)) (line : List Char) :
    Except String (Option Nat) :=
  let s := lstripC (rstripC (stripComment line))
  if s = [] then .ok none
  else
    match parseLabel s with
    | some _ => .ok none
    | none =>
      match tokenize s with
      | [] => .error "missing mnemonic"
      | mn :: args =>
        match encodeTokens labels mn args with
        | .error e => .error e
        | .ok w => .ok (some w)

def pass2 (labels : List (String × Nat)) : List (List Char) → Except String (List Nat)
  | [] => .ok []
  | line :: rest =>
    match assembleLine labels line with
    | .error e => .error e
    | .ok none => pass2 labels rest
    | .ok (some w) =>
      match pass2 labels rest with
      | .error e => .error e
      | .ok ws => .ok (w :: ws)

/-- The whole two-pass assembler (`main`, asm.c:320-529): input as a list of
lines, output the instruction words (each is then written big-endian). -/
def assemble (src : List (List Char)) : Except String (List Nat) :=
  pass2 (pass1 src 0) src

/- ------------------------------------------------------------------
   Disassembler (src/disasm.c): the printed instruction line per word.
   ------------------------------------------------------------------ -/

/-- The decimal digits printed by printf `%u`. -/
def digitChar (d : Nat) : Char := Char.ofNat (48 + d)

def natDigitsGo : Nat → Nat → List Char
  | 0, _ => []
  | fuel + 1, n =>
    if n < 10 then [digitChar n]
    else natDigitsGo fuel (n / 10) ++ [digitChar (n % 10)]

def natDigits (n : Nat) : List Char := natDigitsGo (n + 1) n

theorem natDigitsGo_congr :
    ∀ n fuel1 fuel2, n < fuel1 → n < fuel2 →
      natDigitsGo fuel1 n = natDigitsGo fuel2 n := by
  intro n
  induction n using Nat.strong_induction_on with
  | _ n ih =>
    intro fuel1 fuel2 h1 h2
    match fuel1, fuel2 with
    | f1 + 1, f2 + 1 =>
      simp only [natDigitsGo]
      by_cases h10 : n < 10
      · simp [h10]
      · rw [if_neg h10, if_neg h10]
        rw [ih (n / 10) (Nat.div_lt_self (by omega) (by omega)) f1 f2 (by omega) (by omega)]

/-- The defining recursion of `natDigits` (printf %u prints the leading
digits first, the last digit at the end). -/
theorem natDigits_eq (n : Nat) : natDigits n =
    if n < 10 then [digitChar n] else natDigits (n / 10) ++ [digitChar (n % 10)] := by
  show natDigitsGo (n + 1) n = _
  by_cases h10 : n < 10
  · simp [natDigitsGo, h10]
  · simp only [natDigitsGo, if_neg h10]
    rw [natDigitsGo_congr (n / 10) n (n / 10 + 1) (by omega) (by omega)]
    rfl

/-- The instruction line printed by `print_insn` (disasm.c:135-210) for one
word, as its whitespace-separated tokens: the mnemonic, then the used
operand fields in decimal.  Opcodes 14/15 print only a `;;`-comment line
(which the assembler skips as a comment): represented as `none`. -/
def disasmTokens (w : Nat) : Option (List (List Char)) :=
  if OPC w = 13 then some [chs "loadimm", natDigits (LI_A w), natDigits (LI_VAL w)]
  else if OPC w = 0 then
    some [chs "cmov", natDigits (ABC_A w), natDigits (ABC_B w), natDigits (ABC_C w)]
  else if OPC w = 1 then
    some [chs "aidx", natDigits (ABC_A w), natDigits (ABC_B w), natDigits (ABC_C w)]
  else if OPC w = 2 then
    some [chs "aupd", natDigits (ABC_A w), natDigits (ABC_B w), natDigits (ABC_C w)]
  else if OPC w = 3 then
    some [chs "add", natDigits (ABC_A w), natDigits (ABC_B w), natDigits (ABC_C w)]
  else if OPC w = 4 then
    some [chs "mul", natDigits (ABC_A w), natDigits (ABC_B w), natDigits (ABC_C w)]
  else if OPC w = 5 then
    some [chs "div", natDigits (ABC_A w), natDigits (ABC_B w), natDigits (ABC_C w)]
  else if OPC w = 6 then
    some [chs "nand", natDigits (ABC_A w), natDigits (ABC_B w), natDigits (ABC_C w)]
  else if OPC w = 7 then some [chs "halt"]
  else if OPC w = 8 then some [chs "alloc", natDigits (ABC_B w), natDigits (ABC_C w)]
  else if OPC w = 9 then some [chs "dealloc", natDigits (ABC_C w)]
  else if OPC w = 10 then some [chs "out", natDigits (ABC_C w)]
  else if OPC w = 11 then some [chs "in", natDigits (ABC_C w)]
  else if OPC w = 12 then some [chs "loadprog", natDigits (ABC_B w), natDigits (ABC_C w)]
  else none


/- ------------------------------------------------------------------
   C2: duplicate labels.
   ------------------------------------------------------------------ -/

/-- A program in which the label `x` is defined twice. -/
def dupSrc : List (List Char) := [chs "label @x", chs "halt", chs "label @x", chs "halt"]

/-- C2 counterexample: on an input with a duplicated `label @x` line the
assembler does not report any error — pass 1 records both occurrences and
assembly produces an output binary (two halt words). -/
theorem dup_label_accepted :
    pass1 dupSrc 0 = [("x", 0), ("x", 1)] ∧
      assemble dupSrc = .ok [1879048192, 1879048192] := by decide

/-- C2 amended: duplicate label names are not rejected; `labels_add` appends
every occurrence and `labels_find` scans front to back, so a `@name`
reference resolves to the PC of the earliest occurrence. -/
theorem dup_label_first_wins (pre post : List (String × Nat)) (name : String) (pc : Nat)
    (h : ∀ e ∈ pre, Prod.fst e ≠ name) :
    labelsFind (pre ++ (name, pc) :: post) name = some pc := by
  induction pre with
  | nil => simp [labelsFind]
  | cons e rest ih =>
    obtain ⟨n, v⟩ := e
    have hne : n ≠ name := h (n, v) (List.mem_cons_self _ _)
    simp only [List.cons_append, labelsFind]
    rw [if_neg hne]
    exact ih (fun e2 he2 => h e2 (List.mem_cons_of_mem _ he2))

theorem dup_label_first_wins_witness :
    labelsFind ([("y", 5)] ++ ("x", 0) :: [("x", 1)]) "x" = some 0 :=
  dup_label_first_wins [("y", 5)] [("x", 1)] "x" 0
    (by intro e he; simp at he; subst he; decide)


/- ------------------------------------------------------------------
   C10: tokens after the required operands are ignored.
   ------------------------------------------------------------------ -/

/-- Appending tokens to a line that already encodes successfully does not
change the encoded word: every dispatch branch takes its operands from the
front of the token list and ignores the rest. -/
theorem encodeTokens_append_extra (labels : List (String × Nat)) (mn : List Char)
    (args extra : List (List Char)) (w : Nat)
    (h : encodeTokens labels mn args = .ok w) :
    encodeTokens labels mn (args ++ extra) = .ok w := by
  unfold encodeTokens at h ⊢
  by_cases h1 : mn = chs "loadimm"
  · rw [if_pos h1] at h ⊢
    cases args with
    | nil => simp at h
    | cons tA args1 =>
      cases args1 with
      | nil => simp at h
      | cons tI rest => exact h
  rw [if_neg h1] at h ⊢
  by_cases h2 : mn = chs "cmov" ∨ mn = chs "aidx" ∨ mn = chs "aupd" ∨ mn = chs "add" ∨
      mn = chs "mul" ∨ mn = chs "div" ∨ mn = chs "nand"
  · rw [if_pos h2] at h ⊢
    cases args with
    | nil => simp at h
    | cons tA args1 =>
      cases args1 with
      | nil => simp at h
      | cons tB args2 =>
        cases args2 with
        | nil => simp at h
        | cons tC rest => exact h
  rw [if_neg h2] at h ⊢
  by_cases h3 : mn = chs "halt"
  · rw [if_pos h3] at h ⊢
    exact h
  rw [if_neg h3] at h ⊢
  by_cases h4 : mn = chs "alloc"
  · rw [if_pos h4] at h ⊢
    cases args with
    | nil => simp at h
    | cons tB args1 =>
      cases args1 with
      | nil => simp at h
      | cons tC rest => exact h
  rw [if_neg h4] at h ⊢
  by_cases h5 : mn = chs "dealloc"
  · rw [if_pos h5] at h ⊢
    cases args with
    | nil => simp at h
    | cons tC rest => exact h
  rw [if_neg h5] at h ⊢
  by_cases h6 : mn = chs "out"
  · rw [if_pos h6] at h ⊢
    cases args with
    | nil => simp at h
    | cons tC rest => exact h
  rw [if_neg h6] at h ⊢
  by_cases h7 : mn = chs "in"
  · rw [if_pos h7] at h ⊢
    cases args with
    | nil => simp at h
    | cons tC rest => exact h
  rw [if_neg h7] at h ⊢
  by_cases h8 : mn = chs "loadprog"
  · rw [if_pos h8] at h ⊢
    cases args with
    | nil => simp at h
    | cons tB args1 =>
      cases args1 with
      | nil => simp at h
      | cons tC rest => exact h
  rw [if_neg h8] at h ⊢
  simp at h

/-- A line recognized by `parse_label` tokenizes with first token `label`. -/
theorem tokenize_label_head (s : List Char) (name : List Char)
    (h : parseLabel s = some name) : (tokenize s).head? = some (chs "label") := by
  unfold parseLabel at h
  by_cases hc : s.take 5 = chs "label" ∧ Option.any isSpaceC (s.drop 5).head? = true
  case neg => rw [if_neg hc] at h; exact absurd h (by simp)
  rw [if_pos hc] at h
  obtain ⟨htake, hsp⟩ := hc
  have hs5 : s = chs "label" ++ s.drop 5 := by
    conv_lhs => rw [← List.take_append_drop 5 s]
    rw [htake]
  obtain ⟨c, cs, hdrop⟩ : ∃ c cs, s.drop 5 = c :: cs := by
    cases hd : s.drop 5 with
    | nil => rw [hd] at hsp; simp [Option.any] at hsp
    | cons c cs => exact ⟨c, cs, rfl⟩
  have hspc : isSpaceC c = true := by
    rw [hdrop] at hsp; simpa [Option.any] using hsp
  have hsep : isSepC c = true := by simp [isSepC, hspc]
  rw [hs5, hdrop]
  rcases htc : tokCore cs with ⟨cur0, toks0⟩
  simp [tokenize, tokCore, chs, htc, hsep,
    show isSepC 'l' = false by decide, show isSepC 'a' = false by decide,
    show isSepC 'b' = false by decide, show isSepC 'e' = false by decide]

/-- A line whose first token is `halt` assembles to exactly 0x70000000,
whatever else the line contains. -/
theorem assembleLine_halt (labels : List (String × Nat)) (line : List Char)
    (ts : List (List Char))
    (htok : tokenize (lstripC (rstripC (stripComment line))) = chs "halt" :: ts) :
    assembleLine labels line = .ok (some 1879048192) := by
  have hs : lstripC (rstripC (stripComment line)) ≠ [] := by
    intro h0
    rw [h0] at htok
    simp [tokenize, tokCore] at htok
  have hlab : parseLabel (lstripC (rstripC (stripComment line))) = none := by
    cases hp : parseLabel (lstripC (rstripC (stripComment line))) with
    | none => rfl
    | some nm =>
      have hh := tokenize_label_head _ _ hp
      rw [htok] at hh
      simp at hh
      exact absurd hh (by decide)
  unfold assembleLine
  rw [if_neg hs, hlab, htok]
  simp [encodeTokens,
    show chs "halt" ≠ chs "loadimm" by decide,
    show ¬ (chs "halt" = chs "cmov" ∨ chs "halt" = chs "aidx" ∨ chs "halt" = chs "aupd" ∨
      chs "halt" = chs "add" ∨ chs "halt" = chs "mul" ∨ chs "halt" = chs "div" ∨
      chs "halt" = chs "nand") by decide,
    show encodeABC 7 0 0 0 = 1879048192 by decide]

/-- C10: on every assembler input line, tokens after the mnemonic's required
operands are silently ignored rather than an error — a successful encoding
is unchanged by appending arbitrary extra tokens — and in particular every
line whose mnemonic is `halt` assembles to exactly the word 0x70000000,
regardless of any further tokens on the line. -/
theorem extra_tokens_ignored :
    (∀ (labels : List (String × Nat)) (mn : List Char) (args extra : List (List Char))
        (w : Nat), encodeTokens labels mn args = .ok w →
        encodeTokens labels mn (args ++ extra) = .ok w) ∧
    (∀ (labels : List (String × Nat)) (line : List Char) (ts : List (List Char)),
        tokenize (lstripC (rstripC (stripComment line))) = chs "halt" :: ts →
        assembleLine labels line = .ok (some 1879048192)) :=
  ⟨encodeTokens_append_extra, assembleLine_halt⟩

theorem extra_tokens_ignored_witness :
    (encodeTokens [] (chs "out") [chs "r1"] = .ok 2684354561 ∧
      encodeTokens [] (chs "out") ([chs "r1"] ++ [chs "junk"]) = .ok 2684354561) ∧
    (tokenize (lstripC (rstripC (stripComment (chs "halt 1 2 3")))) =
        chs "halt" :: [chs "1", chs "2", chs "3"] ∧
      assembleLine [] (chs "halt 1 2 3") = .ok (some 1879048192)) :=
  ⟨⟨by decide,
    extra_tokens_ignored.1 [] (chs "out") [chs "r1"] [chs "junk"] 2684354561 (by decide)⟩,
   ⟨by decide,
    extra_tokens_ignored.2 [] (chs "halt 1 2 3") [chs "1", chs "2", chs "3"] (by decide)⟩⟩


/- ------------------------------------------------------------------
   C3: disassembler/assembler roundtrip.
   ------------------------------------------------------------------ -/

theorem digitChar_digit (d : Nat) (h : d < 10) : isDigitC (digitChar d) = true := by
  interval_cases d <;> decide

theorem digitChar_ne_zero (d : Nat) (h1 : 1 ≤ d) (h2 : d < 10) : digitChar d ≠ '0' := by
  interval_cases d <;> decide

theorem digitChar_toNat (d : Nat) (h : d < 10) : (digitChar d).toNat - 48 = d := by
  interval_cases d <;> decide

theorem natDigits_ne_nil (n : Nat) : natDigits n ≠ [] := by
  rw [natDigits_eq]
  by_cases h : n < 10 <;> simp [h]

theorem natDigits_all_digit (n : Nat) : ∀ c ∈ natDigits n, isDigitC c = true := by
  induction n using Nat.strong_induction_on with
  | _ n ih =>
    rw [natDigits_eq]
    by_cases h : n < 10
    · rw [if_pos h]
      intro c hc
      simp at hc
      subst hc
      exact digitChar_digit n h
    · rw [if_neg h]
      intro c hc
      rw [List.mem_append] at hc
      rcases hc with hc | hc
      · exact ih (n / 10) (Nat.div_lt_self (by omega) (by omega)) c hc
      · simp at hc
        subst hc
        exact digitChar_digit (n % 10) (Nat.mod_lt _ (by omega))

theorem natDigits_head_ne_zero : ∀ n, 1 ≤ n → ∀ rest, natDigits n ≠ '0' :: rest := by
  intro n
  induction n using Nat.strong_induction_on with
  | _ n ih =>
    intro h rest heq
    rw [natDigits_eq] at heq
    by_cases h10 : n < 10
    · rw [if_pos h10] at heq
      injection heq with h1 h2
      exact digitChar_ne_zero n h h10 h1
    · rw [if_neg h10] at heq
      obtain ⟨c, l, hcl⟩ := List.exists_cons_of_ne_nil (natDigits_ne_nil (n / 10))
      rw [hcl] at heq
      simp only [List.cons_append, List.cons.injEq] at heq
      exact ih (n / 10) (Nat.div_lt_self (by omega) (by omega)) (by omega) l
        (hcl.trans (by rw [heq.1]))

theorem decVal_append1 (l : List Char) (c : Char) :
    decVal (l ++ [c]) = 10 * decVal l + (c.toNat - 48) := by
  simp [decVal, List.foldl_append]

theorem decVal_natDigits (n : Nat) : decVal (natDigits n) = n := by
  induction n using Nat.strong_induction_on with
  | _ n ih =>
    rw [natDigits_eq]
    by_cases h : n < 10
    · rw [if_pos h]
      show decVal [digitChar n] = n
      simp [decVal]
      exact digitChar_toNat n h
    · rw [if_neg h, decVal_append1, ih (n / 10) (Nat.div_lt_self (by omega) (by omega)),
        digitChar_toNat (n % 10) (Nat.mod_lt _ (by omega))]
      omega

theorem takeWhile_all_eq {p : Char → Bool} : ∀ (l : List Char), (∀ c ∈ l, p c = true) →
    l.takeWhile p = l ∧ l.dropWhile p = [] := by
  intro l h
  induction l with
  | nil => simp
  | cons c cs ih =>
    have hc := h c (List.mem_cons_self _ _)
    simp [List.takeWhile_cons, List.dropWhile_cons, hc]
    exact fun c2 hc2 => h c2 (List.mem_cons_of_mem _ hc2)

theorem parseNum0_natDigits (n : Nat) (h : n ≤ 4294967295) :
    parseNum0 (natDigits n) = some n := by
  by_cases h10 : n < 10
  · interval_cases n <;> decide
  · obtain ⟨c, l, hcl⟩ := List.exists_cons_of_ne_nil (natDigits_ne_nil n)
    have hcdig : isDigitC c = true :=
      natDigits_all_digit n c (by rw [hcl]; exact List.mem_cons_self _ _)
    have hcne0 : c ≠ '0' := fun hc =>
      natDigits_head_ne_zero n (by omega) l (by rw [hcl, hc])
    have hnotdash : ¬ ((natDigits n).head? = some '-') := by
      rw [hcl]
      simp only [List.head?, Option.some.injEq]
      intro hc
      rw [hc] at hcdig
      exact absurd hcdig (by decide)
    have hnotplus : ¬ ((natDigits n).head? = some '+') := by
      rw [hcl]
      simp only [List.head?, Option.some.injEq]
      intro hc
      rw [hc] at hcdig
      exact absurd hcdig (by decide)
    have hnot0 : ¬ ((natDigits n).head? = some '0') := by
      rw [hcl]
      simp only [List.head?, Option.some.injEq]
      exact hcne0
    obtain ⟨ht, hd⟩ := takeWhile_all_eq (natDigits n) (natDigits_all_digit n)
    have hne : ¬ (natDigits n).takeWhile isDigitC = [] := by
      rw [ht]; exact natDigits_ne_nil n
    have hsign : ¬ ((natDigits n).head? = some '-' ∨ (natDigits n).head? = some '+') :=
      fun hc => hc.elim hnotdash hnotplus
    simp only [parseNum0, base0Part]
    rw [if_neg hsign, if_neg hnot0, if_neg hne, ht, hd, decVal_natDigits,
      decide_eq_false hnotdash]
    have h64 : (18446744073709551616 ≤ n) = False := by
      simp only [eq_iff_iff, iff_false]
      omega
    have h32 : (4294967295 < n) = False := by
      simp only [eq_iff_iff, iff_false]
      omega
    simp [h64, h32, h]

theorem parse_imm_natDigits (labels : List (String × Nat)) (n : Nat)
    (h : n ≤ 4294967295) : parse_imm labels (natDigits n) = some n := by
  obtain ⟨c, l, hcl⟩ := List.exists_cons_of_ne_nil (natDigits_ne_nil n)
  have hcdig : isDigitC c = true :=
    natDigits_all_digit n c (by rw [hcl]; exact List.mem_cons_self _ _)
  have hat : ¬ ((natDigits n).head? = some '@') := by
    rw [hcl]
    simp only [List.head?, Option.some.injEq]
    intro hc
    rw [hc] at hcdig
    exact absurd hcdig (by decide)
  have hq : ¬ ((natDigits n).head? = some quoteC) := by
    rw [hcl]
    simp only [List.head?, Option.some.injEq]
    intro hc
    rw [hc] at hcdig
    exact absurd hcdig (by decide)
  unfold parse_imm
  rw [if_neg (natDigits_ne_nil n), if_neg hat, if_neg hq]
  exact parseNum0_natDigits n h

theorem parse_reg_natDigits (a : Nat) (h : a ≤ 7) : parse_reg (natDigits a) = some a := by
  interval_cases a <;> decide

/-- C3 counterexample: the word 0x200 (= 512) has opcode 0 but a nonzero
unused bit (bit 9).  The disassembler prints `cmov 0 0 0`, which re-encodes
to 0, not to 0x200 — so the roundtrip fails on a word whose opcode field is
in 0..13. -/
theorem disasm_roundtrip_cex :
    OPC 512 = 0 ∧
      disasmTokens 512 = some [chs "cmov", chs "0", chs "0", chs "0"] ∧
      encodeTokens [] (chs "cmov") [chs "0", chs "0", chs "0"] = .ok 0 ∧
      (0 : Nat) ≠ 512 := by decide

/-- The words the assembler can actually produce: opcode in 0..13 and every
bit the instruction layout does not use equal to zero (the three-register
layout uses bits 0..8, `halt` encodes its unused A, B, C as zero, `alloc`
and `loadprog` use bits 0..5, `dealloc`, `out` and `in` use bits 0..2, and
`loadimm` uses all of bits 0..27). -/
def canonicalWord (w : Nat) : Prop :=
  w < 2 ^ 32 ∧ OPC w ≤ 13 ∧
  (OPC w ≤ 6 → w % 2 ^ 28 < 2 ^ 9) ∧
  (OPC w = 7 → w % 2 ^ 28 = 0) ∧
  ((OPC w = 8 ∨ OPC w = 12) → w % 2 ^ 28 < 2 ^ 6) ∧
  ((OPC w = 9 ∨ OPC w = 10 ∨ OPC w = 11) → w % 2 ^ 28 < 2 ^ 3)

instance (w : Nat) : Decidable (canonicalWord w) := by
  unfold canonicalWord
  infer_instance

/-- C3 amended: for every 32-bit word whose opcode field is 0..13 **and
whose unused bits are zero** (exactly the words the assembler can emit),
re-encoding the mnemonic and operands printed by the disassembler yields the
original word.  Words with nonzero unused bits lose them (see the
counterexample). -/
theorem disasm_asm_roundtrip (w : Nat) (h : canonicalWord w) :
    ∃ mn args, disasmTokens w = some (mn :: args) ∧
      encodeTokens [] mn args = .ok w := by
  obtain ⟨hw, hop, h06, h7, h812, h911⟩ := h
  have hA : ABC_A w ≤ 7 := by unfold ABC_A; omega
  have hB : ABC_B w ≤ 7 := by unfold ABC_B; omega
  have hC : ABC_C w ≤ 7 := by unfold ABC_C; omega
  have hLA : LI_A w ≤ 7 := by unfold LI_A; omega
  have hLV : LI_VAL w ≤ 4294967295 := by unfold LI_VAL; omega
  have hcases : OPC w = 0 ∨ OPC w = 1 ∨ OPC w = 2 ∨ OPC w = 3 ∨ OPC w = 4 ∨ OPC w = 5 ∨
      OPC w = 6 ∨ OPC w = 7 ∨ OPC w = 8 ∨ OPC w = 9 ∨ OPC w = 10 ∨ OPC w = 11 ∨
      OPC w = 12 ∨ OPC w = 13 := by omega
  rcases hcases with h|h|h|h|h|h|h|h|h|h|h|h|h|h
  case _ =>
    refine ⟨chs "cmov", [natDigits (ABC_A w), natDigits (ABC_B w), natDigits (ABC_C w)], by simp [disasmTokens, h], ?_⟩
    simp [encodeTokens,
      parse_reg_natDigits _ hA, parse_reg_natDigits _ hB,
      parse_reg_natDigits _ hC,
      show chs "cmov" ≠ chs "loadimm" by decide]
    unfold encodeABC ABC_A ABC_B ABC_C OPC at *
    norm_num at *
    omega
  case _ =>
    refine ⟨chs "aidx", [natDigits (ABC_A w), natDigits (ABC_B w), natDigits (ABC_C w)], by simp [disasmTokens, h], ?_⟩
    simp [encodeTokens,
      parse_reg_natDigits _ hA, parse_reg_natDigits _ hB,
      parse_reg_natDigits _ hC,
      show chs "aidx" ≠ chs "loadimm" by decide,
      show chs "aidx" ≠ chs "cmov" by decide]
    unfold encodeABC ABC_A ABC_B ABC_C OPC at *
    norm_num at *
    omega
  case _ =>
    refine ⟨chs "aupd", [natDigits (ABC_A w), natDigits (ABC_B w), natDigits (ABC_C w)], by simp [disasmTokens, h], ?_⟩
    simp [encodeTokens,
      parse_reg_natDigits _ hA, parse_reg_natDigits _ hB,
      parse_reg_natDigits _ hC,
      show chs "aupd" ≠ chs "loadimm" by decide,
      show chs "aupd" ≠ chs "cmov" by decide,
      show chs "aupd" ≠ chs "aidx" by decide]
    unfold encodeABC ABC_A ABC_B ABC_C OPC at *
    norm_num at *
    omega
  case _ =>
    refine ⟨chs "add", [natDigits (ABC_A w), natDigits (ABC_B w), natDigits (ABC_C w)], by simp [disasmTokens, h], ?_⟩
    simp [encodeTokens,
      parse_reg_natDigits _ hA, parse_reg_natDigits _ hB,
      parse_reg_natDigits _ hC,
      show chs "add" ≠ chs "loadimm" by decide,
      show chs "add" ≠ chs "cmov" by decide,
      show chs "add" ≠ chs "aidx" by decide,
      show chs "add" ≠ chs "aupd" by decide]
    unfold encodeABC ABC_A ABC_B ABC_C OPC at *
    norm_num at *
    omega
  case _ =>
    refine ⟨chs "mul", [natDigits (ABC_A w), natDigits (ABC_B w), natDigits (ABC_C w)], by simp [disasmTokens, h], ?_⟩
    simp [encodeTokens,
      parse_reg_natDigits _ hA, parse_reg_natDigits _ hB,
      parse_reg_natDigits _ hC,
      show chs "mul" ≠ chs "loadimm" by decide,
      show chs "mul" ≠ chs "cmov" by decide,
      show chs "mul" ≠ chs "aidx" by decide,
      show chs "mul" ≠ chs "aupd" by decide,
      show chs "mul" ≠ chs "add" by decide]
    unfold encodeABC ABC_A ABC_B ABC_C OPC at *
    norm_num at *
    omega
  case _ =>
    refine ⟨chs "div", [natDigits (ABC_A w), natDigits (ABC_B w), natDigits (ABC_C w)], by simp [disasmTokens, h], ?_⟩
    simp [encodeTokens,
      parse_reg_natDigits _ hA, parse_reg_natDigits _ hB,
      parse_reg_natDigits _ hC,
      show chs "div" ≠ chs "loadimm" by decide,
      show chs "div" ≠ chs "cmov" by decide,
      show chs "div" ≠ chs "aidx" by decide,
      show chs "div" ≠ chs "aupd" by decide,
      show chs "div" ≠ chs "add" by decide,
      show chs "div" ≠ chs "mul" by decide]
    unfold encodeABC ABC_A ABC_B ABC_C OPC at *
    norm_num at *
    omega
  case _ =>
    refine ⟨chs "nand", [natDigits (ABC_A w), natDigits (ABC_B w), natDigits (ABC_C w)], by simp [disasmTokens, h], ?_⟩
    simp [encodeTokens,
      parse_reg_natDigits _ hA, parse_reg_natDigits _ hB,
      parse_reg_natDigits _ hC,
      show chs "nand" ≠ chs "loadimm" by decide,
      show chs "nand" ≠ chs "cmov" by decide,
      show chs "nand" ≠ chs "aidx" by decide,
      show chs "nand" ≠ chs "aupd" by decide,
      show chs "nand" ≠ chs "add" by decide,
      show chs "nand" ≠ chs "mul" by decide,
      show chs "nand" ≠ chs "div" by decide]
    unfold encodeABC ABC_A ABC_B ABC_C OPC at *
    norm_num at *
    omega
  case _ =>
    refine ⟨chs "halt", ([] : List (List Char)), by simp [disasmTokens, h], ?_⟩
    simp [encodeTokens,
      show chs "halt" ≠ chs "loadimm" by decide,
      show ¬ (chs "halt" = chs "cmov" ∨ chs "halt" = chs "aidx" ∨ chs "halt" = chs "aupd" ∨
        chs "halt" = chs "add" ∨ chs "halt" = chs "mul" ∨ chs "halt" = chs "div" ∨
        chs "halt" = chs "nand") by decide]
    unfold encodeABC OPC at *
    norm_num at *
    omega
  case _ =>
    refine ⟨chs "alloc", [natDigits (ABC_B w), natDigits (ABC_C w)], by simp [disasmTokens, h], ?_⟩
    simp [encodeTokens,
      parse_reg_natDigits _ hB, parse_reg_natDigits _ hC,
      show chs "alloc" ≠ chs "loadimm" by decide,
      show ¬ (chs "alloc" = chs "cmov" ∨ chs "alloc" = chs "aidx" ∨ chs "alloc" = chs "aupd" ∨
        chs "alloc" = chs "add" ∨ chs "alloc" = chs "mul" ∨ chs "alloc" = chs "div" ∨
        chs "alloc" = chs "nand") by decide,
      show chs "alloc" ≠ chs "halt" by decide]
    unfold encodeABC ABC_B ABC_C OPC at *
    norm_num at *
    omega
  case _ =>
    refine ⟨chs "dealloc", [natDigits (ABC_C w)], by simp [disasmTokens, h], ?_⟩
    simp [encodeTokens,
      parse_reg_natDigits _ hC,
      show chs "dealloc" ≠ chs "loadimm" by decide,
      show ¬ (chs "dealloc" = chs "cmov" ∨ chs "dealloc" = chs "aidx" ∨ chs "dealloc" = chs "aupd" ∨
        chs "dealloc" = chs "add" ∨ chs "dealloc" = chs "mul" ∨ chs "dealloc" = chs "div" ∨
        chs "dealloc" = chs "nand") by decide,
      show chs "dealloc" ≠ chs "halt" by decide,
      show chs "dealloc" ≠ chs "alloc" by decide]
    unfold encodeABC ABC_C OPC at *
    norm_num at *
    omega
  case _ =>
    refine ⟨chs "out", [natDigits (ABC_C w)], by simp [disasmTokens, h], ?_⟩
    simp [encodeTokens,
      parse_reg_natDigits _ hC,
      show chs "out" ≠ chs "loadimm" by decide,
      show ¬ (chs "out" = chs "cmov" ∨ chs "out" = chs "aidx" ∨ chs "out" = chs "aupd" ∨
        chs "out" = chs "add" ∨ chs "out" = chs "mul" ∨ chs "out" = chs "div" ∨
        chs "out" = chs "nand") by decide,
      show chs "out" ≠ chs "halt" by decide,
      show chs "out" ≠ chs "alloc" by decide,
      show chs "out" ≠ chs "dealloc" by decide]
    unfold encodeABC ABC_C OPC at *
    norm_num at *
    omega
  case _ =>
    refine ⟨chs "in", [natDigits (ABC_C w)], by simp [disasmTokens, h], ?_⟩
    simp [encodeTokens,
      parse_reg_natDigits _ hC,
      show chs "in" ≠ chs "loadimm" by decide,
      show ¬ (chs "in" = chs "cmov" ∨ chs "in" = chs "aidx" ∨ chs "in" = chs "aupd" ∨
        chs "in" = chs "add" ∨ chs "in" = chs "mul" ∨ chs "in" = chs "div" ∨
        chs "in" = chs "nand") by decide,
      show chs "in" ≠ chs "halt" by decide,
      show chs "in" ≠ chs "alloc" by decide,
      show chs "in" ≠ chs "dealloc" by decide,
      show chs "in" ≠ chs "out" by decide]
    unfold encodeABC ABC_C OPC at *
    norm_num at *
    omega
  case _ =>
    refine ⟨chs "loadprog", [natDigits (ABC_B w), natDigits (ABC_C w)], by simp [disasmTokens, h], ?_⟩
    simp [encodeTokens,
      parse_reg_natDigits _ hB, parse_reg_natDigits _ hC,
      show chs "loadprog" ≠ chs "loadimm" by decide,
      show ¬ (chs "loadprog" = chs "cmov" ∨ chs "loadprog" = chs "aidx" ∨ chs "loadprog" = chs "aupd" ∨
        chs "loadprog" = chs "add" ∨ chs "loadprog" = chs "mul" ∨ chs "loadprog" = chs "div" ∨
        chs "loadprog" = chs "nand") by decide,
      show chs "loadprog" ≠ chs "halt" by decide,
      show chs "loadprog" ≠ chs "alloc" by decide,
      show chs "loadprog" ≠ chs "dealloc" by decide,
      show chs "loadprog" ≠ chs "out" by decide,
      show chs "loadprog" ≠ chs "in" by decide]
    unfold encodeABC ABC_B ABC_C OPC at *
    norm_num at *
    omega
  case _ =>
    have hsmall : ¬ (0x1FFFFFF < LI_VAL w) := by unfold LI_VAL; omega
    refine ⟨chs "loadimm", [natDigits (LI_A w), natDigits (LI_VAL w)], by simp [disasmTokens, h], ?_⟩
    simp [encodeTokens,
      parse_reg_natDigits _ hLA, parse_imm_natDigits _ _ hLV, hsmall]
    unfold encodeLI LI_A LI_VAL OPC at *
    norm_num at *
    omega

theorem disasm_asm_roundtrip_witness :
    canonicalWord 0xA0000001 ∧
      ∃ mn args, disasmTokens 0xA0000001 = some (mn :: args) ∧
        encodeTokens [] mn args = .ok 0xA0000001 :=
  ⟨by decide, disasm_asm_roundtrip 0xA0000001 (by decide)⟩

end UM
